import Mathlib

/-!
# qbot: command dispatcher and user-existence check

A shallow embedding of `CommandParser` (src/qbot/qbot.go) and `UserExistInDB`
(src/db.go), together with the pieces of the Go runtime and standard library
that the dispatcher relies on (`[]rune` slicing, `strings.Fields`,
`strings.Join`, `strconv.Atoi`).

Conventions.
* `handleMessage` is the body of the `for msgs := range qb.msgCh` loop of
  `CommandParser`, `dispatch` its `switch`, `caseQ`, `caseLq`, `caseQna` and
  `caseA` the four arms; `CommandParser` runs the body over the messages in
  the order of the channel.
* A Go `string` is a Lean `String`; `[]rune(s)` is `s.data` and `string(rs)` is
  `String.mk rs` (messages are taken to be valid UTF-8). A Go `int` has 64 bits.
* A run-time panic is a `Fault`; the handler stops where Go would stop.
* Calls to external collaborators (Slack client, database package, spawned
  goroutines) are recorded, in program order, as a list of `Call`s. Logging is
  not recorded.
* The database package (`qb.DB.*`) is a parameter: a record of state-passing
  functions over an abstract store `σ`.
-/

set_option linter.dupNamespace false
set_option linter.unusedVariables false

namespace QBot

/-! ## Go run time -/

/-- Run-time panics that the dispatcher can raise. -/
inductive Fault
  | sliceOutOfRange
  | indexOutOfRange
  | nilDereference
  deriving DecidableEq, Repr

/-- A Go `[]rune` value: the `len` visible elements and the number of spare
(zeroed) elements of the backing array behind them, so `cap = len + spare`.
The Go specification leaves the capacity produced by a `[]rune(string)`
conversion open; slice expressions are checked against the capacity. -/
structure RuneSlice where
  elems : List Char
  spare : Nat
  deriving DecidableEq, Repr

/-- Conversion `[]rune(s)`; `spare n` is the spare capacity the run time gives a
slice of `n` runes. -/
def runes (spare : Nat → Nat) (s : String) : RuneSlice :=
  { elems := s.data, spare := spare s.length }

/-- Slice expression `s[0:hi]`: in range iff `hi ≤ cap(s)`; elements past
`len(s)` are the zero rune. -/
def RuneSlice.sliceTo (s : RuneSlice) (hi : Nat) : Option (List Char) :=
  if hi ≤ s.elems.length + s.spare then
    some ((s.elems ++ List.replicate s.spare (Char.ofNat 0)).take hi)
  else none

/-- Slice expression `s[lo:]`: in range iff `lo ≤ len(s)`. -/
def RuneSlice.sliceFrom (s : RuneSlice) (lo : Nat) : Option (List Char) :=
  if lo ≤ s.elems.length then some (s.elems.drop lo) else none

/-! ## Go standard library -/

/-- Go `unicode.IsSpace`: the Unicode White_Space property. -/
def IsSpace (r : Char) : Bool :=
  let n := r.toNat
  (0x09 ≤ n && n ≤ 0x0d) || n == 0x20 || n == 0x85 || n == 0xa0 || n == 0x1680 ||
  (0x2000 ≤ n && n ≤ 0x200a) || n == 0x2028 || n == 0x2029 || n == 0x202f ||
  n == 0x205f || n == 0x3000

/-- Scanning loop of `strings.Fields`: `cur` is the field being read. -/
def FieldsFrom : List Char → List Char → List String
  | [], cur => if cur.isEmpty then [] else [String.mk cur]
  | r :: rest, cur =>
    if IsSpace r then
      if cur.isEmpty then FieldsFrom rest [] else String.mk cur :: FieldsFrom rest []
    else FieldsFrom rest (cur ++ [r])

/-- Go `strings.Fields`: the maximal runs of non-space runes, in order. -/
def Fields (s : String) : List String := FieldsFrom s.data []

/-- Go `strings.Join`. -/
def Join : List String → String → String
  | [], _ => ""
  | [a], _ => a
  | a :: b :: rest, sep => a ++ sep ++ Join (b :: rest) sep

/-- Number of bytes of the UTF-8 encoding of a rune. -/
def runeLen (r : Char) : Nat :=
  if r.toNat < 0x80 then 1 else if r.toNat < 0x800 then 2
  else if r.toNat < 0x10000 then 3 else 4

/-- Go `len(s)` for a string: its length in bytes. -/
def len (s : String) : Nat := (s.data.map runeLen).sum

/-- The `Err` of a `strconv.NumError`. -/
inductive NumError
  | ErrSyntax
  | ErrRange
  deriving DecidableEq, Repr

/-- A byte `'0'..'9'`; every byte of a non-ASCII rune is outside this range. -/
def isDigit (c : Char) : Bool := 48 ≤ c.toNat && c.toNat ≤ 57

/-- Digit loop of the fast path of `strconv.Atoi`. -/
def atoiLoop : List Char → Nat → Option Nat
  | [], n => some n
  | ch :: rest, n => if isDigit ch then atoiLoop rest (n * 10 + (ch.toNat - 48)) else none

/-- `maxUint64/10 + 1`, the cutoff of `strconv.ParseUint` in base 10. -/
def uintCutoff : Nat := (2 ^ 64 - 1) / 10 + 1

/-- `1<<64 - 1`. -/
def maxVal : Nat := 2 ^ 64 - 1

/-- Digit loop of `strconv.ParseUint(s, 10, 64)`; `n` is a `uint64`. -/
def parseUintLoop : List Char → Nat → Nat × Option NumError
  | [], n => (n, none)
  | c :: rest, n =>
    if isDigit c then
      if n ≥ uintCutoff then (maxVal, some .ErrRange)
      else
        let m := (n * 10) % 2 ^ 64
        let n1 := (m + (c.toNat - 48)) % 2 ^ 64
        if n1 < m || n1 > maxVal then (maxVal, some .ErrRange)
        else parseUintLoop rest n1
    else (0, some .ErrSyntax)

/-- Go `strconv.ParseUint(s, 10, 64)`. In base 10 letters and underscores are
syntax errors like every other non-digit. -/
def ParseUint (s : List Char) : Nat × Option NumError :=
  if s.isEmpty then (0, some .ErrSyntax) else parseUintLoop s 0

/-- Go `strconv.ParseInt(s, 10, 0)` with a 64-bit `int`. -/
def ParseInt (s : List Char) : Int × Option NumError :=
  match s with
  | [] => (0, some .ErrSyntax)
  | c :: rest =>
    let neg := c == '-'
    let body := if c == '+' || c == '-' then rest else s
    match ParseUint body with
    | (_, some .ErrSyntax) => (0, some .ErrSyntax)
    | (un, _) =>
      let cutoff : Nat := 2 ^ 63
      if !neg && un ≥ cutoff then ((cutoff : Int) - 1, some .ErrRange)
      else if neg && un > cutoff then (-(cutoff : Int), some .ErrRange)
      else (if neg then -(un : Int) else (un : Int), none)

/-- Go `strconv.Atoi` with a 64-bit `int`: the value and the error. -/
def Atoi (s : String) : Int × Option NumError :=
  if 0 < len s && len s < 19 then
    match s.data with
    | [] => (0, some .ErrSyntax)
    | c :: rest =>
      let body := if c == '-' || c == '+' then rest else s.data
      if body.isEmpty then (0, some .ErrSyntax)
      else
        match atoiLoop body 0 with
        | none => (0, some .ErrSyntax)
        | some n => (if c == '-' then -(n : Int) else (n : Int), none)
  else ParseInt s.data

/-! ## Data model -/

/-- Modelled from the spec: the `Answer` row of the missing `model` package
(numeric ID, body, question reference, channel, author name). -/
structure Answer where
  ID : Nat
  Answer : String
  QuestionID : Int
  SlackChannel : String
  UserName : String
  deriving DecidableEq, Repr

/-- Modelled from the spec: the `Question` row of the missing `model` package
(numeric ID, body, channel, author name, answers). -/
structure Question where
  ID : Nat
  Question : String
  SlackChannel : String
  UserName : String
  Answers : List Answer
  deriving DecidableEq, Repr

/-- Modelled from the spec: the `User` row of the missing `model` package
(platform ID `SlackUser`, name, title, avatar, owned questions and answers). -/
structure User where
  Questions : List Question
  Answers : List Answer
  Name : String
  Title : String
  Avatar : String
  SlackUser : String
  deriving DecidableEq, Repr

/-- The fields of `slack.UserProfile` that the dispatcher reads. -/
structure UserProfile where
  RealName : String
  RealNameNormalized : String
  Title : String
  Image32 : String
  deriving DecidableEq, Repr

/-- The fields of `slack.User` that the dispatcher reads. -/
structure SlackUserInfo where
  ID : String
  Profile : UserProfile
  deriving DecidableEq, Repr

/-- A `slack.OutgoingMessage` as built by `rtm.NewOutgoingMessage(text, channel)`. -/
structure OutgoingMessage where
  Text : String
  Channel : String
  deriving DecidableEq, Repr

/-- Builder `rtm.NewOutgoingMessage`. -/
def NewOutgoingMessage (text channel : String) : OutgoingMessage :=
  { Text := text, Channel := channel }

/-- The `Message` struct of qbot.go. -/
structure Message where
  User : String
  Channel : String
  Message : String
  deriving DecidableEq, Repr

/-- An error returned by the database package. The dispatcher only ever tests
such an error against `nil`. -/
inductive DBError
  | duplicate
  | other (cause : String)
  deriving DecidableEq, Repr

/-- The database package `qb.DB`, a parameter of the dispatcher. Every
operation takes the store and returns what the dispatcher reads back: the
error, and for the two question writes the `ID` found in the `Question` after
the call. -/
structure Database (σ : Type) where
  UserExistInDB : σ → User → Bool
  UpdateUsers : σ → User → σ
  UpdateUserTableWithQuestion : σ → User → Question → σ × Option DBError × Nat
  UpdateUserTableWithAnswer : σ → User → Answer → σ × Option DBError
  UpdateQuestionTableWithAnswer : σ → Question → Answer → σ × Option DBError × Nat

/-- The collaborators of the dispatcher: the Slack profile lookup, which
returns a pointer (here an `Option`) and an error, the spare capacity the run
time gives to `[]rune(message)`, and the database. -/
structure Env (σ : Type) where
  GetUserInfo : String → Option SlackUserInfo × Option String
  spare : Nat → Nat
  DB : Database σ

/-- One recorded call to a collaborator. `UserExistInDB` carries its result;
`goLqHandler` and `goQnaHandler` are the two `go` statements. -/
inductive Call
  | GetUserInfo (user : String)
  | UserExistInDB (user : User) (found : Bool)
  | UpdateUsers (user : User)
  | UpdateUserTableWithQuestion (user : User) (q : Question)
  | UpdateUserTableWithAnswer (user : User) (a : Answer)
  | UpdateQuestionTableWithAnswer (q : Question) (a : Answer)
  | goLqHandler (sChannel : String)
  | goQnaHandler (sChannel : String) (questionID : Int)
  | SendMessage (msg : OutgoingMessage)
  deriving DecidableEq, Repr

/-- The calls that read or write the database. -/
def Call.isPersistence : Call → Bool
  | .UserExistInDB _ _ => true
  | .UpdateUsers _ => true
  | .UpdateUserTableWithQuestion _ _ => true
  | .UpdateUserTableWithAnswer _ _ => true
  | .UpdateQuestionTableWithAnswer _ _ => true
  | _ => false

/-- What one arm of the `switch` leaves behind: the store, the calls it made,
the panic that ended it if any, and the value of `outMsg`. -/
structure Arm (σ : Type) where
  db : σ
  calls : List Call
  fault : Option Fault
  outMsg : OutgoingMessage

/-- What handling one message leaves behind. -/
structure Step (σ : Type) where
  db : σ
  calls : List Call
  fault : Option Fault

/-! ## The dispatcher (src/qbot/qbot.go, `CommandParser`) -/

/-- The guarded insert `if !qb.DB.UserExistInDB(*user) { qb.DB.UpdateUsers(user) }`. -/
def ensureUser {σ : Type} (db : Database σ) (s : σ) (user : User) : σ × List Call :=
  let found := db.UserExistInDB s user
  if !found then (db.UpdateUsers s user, [.UserExistInDB user found, .UpdateUsers user])
  else (s, [.UserExistInDB user found])

/-- The validation reply shared by the `!qna` and `!a` arms. -/
def includeIDReply : String :=
  "Please include an ID for the question you're answering\n E.g '!a 123 The answer is no!'"

/-- The reply of the `!q` arm when the question write returns an error. -/
def alreadyAskedReply : String :=
  "Someone has already asked that question. Run *!lq* to see the last questions asked"

/-- The `Question` built at lines 125-126. -/
def newQuestion (outQuestion sChannel : String) (info : SlackUserInfo) : Question :=
  { ID := 0, Question := outQuestion, SlackChannel := sChannel,
    UserName := info.Profile.RealName, Answers := [] }

/-- The `User` built at lines 128-134. -/
def questionUser (info : SlackUserInfo) (q : Question) : User :=
  { Questions := [q], Answers := [], Name := info.Profile.RealNameNormalized,
    Title := info.Profile.Title, Avatar := info.Profile.Image32, SlackUser := info.ID }

/-- The `Answer` built at lines 173-174. -/
def newAnswer (outAnswer : String) (questionID : Int) (sChannel : String)
    (info : SlackUserInfo) : Answer :=
  { ID := 0, Answer := outAnswer, QuestionID := questionID, SlackChannel := sChannel,
    UserName := info.Profile.RealName }

/-- The `User` built at lines 175-181. -/
def answerUser (info : SlackUserInfo) (a : Answer) : User :=
  { Questions := [], Answers := [a], Name := info.Profile.RealNameNormalized,
    Title := info.Profile.Title, Avatar := info.Profile.Image32, SlackUser := info.ID }

/-- The `Question` built at line 194. -/
def answeredQuestion (a : Answer) : Question :=
  { ID := 0, Question := "", SlackChannel := "", UserName := "", Answers := [a] }

/-- The confirmation built at line 143. -/
def questionThanks (userName : String) (id : Nat) : String :=
  "Thank you " ++ userName ++
    " for providing a question. Your question has been assigned ID: " ++ Nat.repr id

/-- The confirmation built at line 199. -/
def answerThanks (userName : String) (id : Nat) : String :=
  "Thank you " ++ userName ++ " for providing an answer to question " ++ Nat.repr id ++ "!"

/-- Arm `case "!q " / "!Q "` (lines 122-145). -/
def caseQ {σ : Type} (env : Env σ) (s : σ) (sChannel : String)
    (userInfo : Option SlackUserInfo) (msgSplit : RuneSlice) : Arm σ :=
  match msgSplit.sliceFrom 3 with
  | none => ⟨s, [], some .sliceOutOfRange, NewOutgoingMessage "" sChannel⟩
  | some tail =>
    let outQuestion := String.mk tail
    match userInfo with
    | none => ⟨s, [], some .nilDereference, NewOutgoingMessage "" sChannel⟩
    | some info =>
      let q := newQuestion outQuestion sChannel info
      let user := questionUser info q
      let (s1, c1) := ensureUser env.DB s user
      let (s2, err, qID) := env.DB.UpdateUserTableWithQuestion s1 user q
      let reply :=
        match err with
        | some _ => alreadyAskedReply
        | none => questionThanks q.UserName qID
      ⟨s2, c1 ++ [.UpdateUserTableWithQuestion user q], none, NewOutgoingMessage reply sChannel⟩

/-- Arm `case "!lq" / "!LQ"` (lines 147-148). -/
def caseLq {σ : Type} (s : σ) (sChannel : String) : Arm σ :=
  ⟨s, [.goLqHandler sChannel], none, NewOutgoingMessage "" sChannel⟩

/-- Arm `case "!qna " / "!QnA "` (lines 149-159). -/
def caseQna {σ : Type} (s : σ) (sChannel : String) (msgSplit : RuneSlice) : Arm σ :=
  match msgSplit.sliceFrom 5 with
  | none => ⟨s, [], some .sliceOutOfRange, NewOutgoingMessage "" sChannel⟩
  | some tail =>
    match Fields (String.mk tail) with
    | [] => ⟨s, [], some .indexOutOfRange, NewOutgoingMessage "" sChannel⟩
    | p0 :: _ =>
      let (questionID, err) := Atoi p0
      let reply := if err.isSome then includeIDReply else ""
      ⟨s, [.goQnaHandler sChannel questionID], none, NewOutgoingMessage reply sChannel⟩

/-- Arm `case "!a " / "!A "` (lines 161-206). -/
def caseA {σ : Type} (env : Env σ) (s : σ) (sChannel : String)
    (userInfo : Option SlackUserInfo) (msgSplit : RuneSlice) : Arm σ :=
  match msgSplit.sliceFrom 3 with
  | none => ⟨s, [], some .sliceOutOfRange, NewOutgoingMessage "" sChannel⟩
  | some tail =>
    match Fields (String.mk tail) with
    | [] => ⟨s, [], some .indexOutOfRange, NewOutgoingMessage "" sChannel⟩
    | p0 :: rest =>
      let (questionID, err) := Atoi p0
      let reply := if err.isSome then includeIDReply else ""
      let outAnswer := Join rest " "
      if len outAnswer != 0 then
        match userInfo with
        | none => ⟨s, [], some .nilDereference, NewOutgoingMessage "" sChannel⟩
        | some info =>
          let a := newAnswer outAnswer questionID sChannel info
          let user := answerUser info a
          let (s1, c1) := ensureUser env.DB s user
          let (s2, err1) := env.DB.UpdateUserTableWithAnswer s1 user a
          let reply :=
            if err1.isSome then "I had problems storing your provided answer in the DB" else reply
          let q := answeredQuestion a
          let (s3, err2, qID) := env.DB.UpdateQuestionTableWithAnswer s2 q a
          let reply :=
            if err2.isSome then
              "I had problems storing your provided answer in the DB. Did you specify the Question ID correctly?"
            else answerThanks a.UserName qID
          ⟨s3, c1 ++ [.UpdateUserTableWithAnswer user a, .UpdateQuestionTableWithAnswer q a],
            none, NewOutgoingMessage reply sChannel⟩
      else
        let reply := "No answer was provided, please try again"
        ⟨s, [], none, NewOutgoingMessage reply sChannel⟩

/-- The `switch` of lines 121-207: the arm taken, or the panic of a slice
expression in a `case` condition. Conditions are evaluated in source order. -/
def dispatch {σ : Type} (env : Env σ) (s : σ) (sChannel : String)
    (userInfo : Option SlackUserInfo) (msgSplit : RuneSlice) : Arm σ :=
  let outMsg := NewOutgoingMessage "" sChannel
  match msgSplit.sliceTo 3 with
  | none => ⟨s, [], some .sliceOutOfRange, outMsg⟩
  | some p3 =>
    if String.mk p3 = "!q " ∨ String.mk p3 = "!Q " then
      caseQ env s sChannel userInfo msgSplit
    else if String.mk p3 = "!lq" ∨ String.mk p3 = "!LQ" then
      caseLq s sChannel
    else
      match msgSplit.sliceTo 5 with
      | none => ⟨s, [], some .sliceOutOfRange, outMsg⟩
      | some p5 =>
        if String.mk p5 = "!qna " ∨ String.mk p5 = "!QnA " then
          caseQna s sChannel msgSplit
        else if String.mk p3 = "!a " ∨ String.mk p3 = "!A " then
          caseA env s sChannel userInfo msgSplit
        else ⟨s, [], none, outMsg⟩

/-- Body of the loop `for msgs := range qb.msgCh` (lines 111-208): one message.
The profile lookup comes first; `SendMessage(outMsg)` follows the `switch`
unless an arm panicked. -/
def handleMessage {σ : Type} (env : Env σ) (s : σ) (msgs : Message) : Step σ :=
  let message := msgs.Message
  let sChannel := msgs.Channel
  let (userInfo, _) := env.GetUserInfo msgs.User
  let msgSplit := runes env.spare message
  let arm := dispatch env s sChannel userInfo msgSplit
  match arm.fault with
  | some f => ⟨arm.db, .GetUserInfo msgs.User :: arm.calls, some f⟩
  | none => ⟨arm.db, .GetUserInfo msgs.User :: (arm.calls ++ [.SendMessage arm.outMsg]), none⟩

/-- The loop of `CommandParser` over the messages delivered on `qb.msgCh`, in
order. A panic ends the goroutine: later messages are not handled. -/
def CommandParser {σ : Type} (env : Env σ) : σ → List Message → Step σ
  | s, [] => ⟨s, [], none⟩
  | s, m :: rest =>
    let r := handleMessage env s m
    match r.fault with
    | some _ => r
    | none =>
      let r2 := CommandParser env r.db rest
      ⟨r2.db, r.calls ++ r2.calls, r2.fault⟩

/-- The text of every `SendMessage` among the calls. -/
def sentTexts : List Call → List String
  | [] => []
  | .SendMessage m :: cs => m.Text :: sentTexts cs
  | _ :: cs => sentTexts cs

/-- The `Answer` of every answer write among the calls. -/
def builtAnswers : List Call → List Answer
  | [] => []
  | .UpdateUserTableWithAnswer _ a :: cs => a :: builtAnswers cs
  | .UpdateQuestionTableWithAnswer _ a :: cs => a :: builtAnswers cs
  | _ :: cs => builtAnswers cs

/-! ## The user-existence check (src/db.go, `UserExistInDB`) -/

/-- The `*gorm.DB` handle returned by a query chain; `Error` is its error state. -/
structure GormDB where
  Error : Option String
  deriving DecidableEq, Repr

/-- Outcome of `qb.DB.Where(...).First(&newUserRecord).Count(&count)`: the
handle the chain returns and the value left in `count`. -/
structure Lookup where
  handle : Option GormDB
  count : Int
  deriving DecidableEq, Repr

/-- Function `UserExistInDB` of src/db.go; `lookup` is the query chain. The
variable the source calls `err` holds the handle of the chain. -/
def UserExistInDB (lookup : User → Lookup) (newUserRecord : User) : Bool :=
  let r := lookup newUserRecord
  if r.handle.isSome then
    if r.count = 0 then false else true
  else true

/-! ## A store of User rows -/

/-- The store: the rows of the User table and the other tables. -/
structure Store (τ : Type) where
  users : List User
  tables : τ

/-- Number of User rows with the given platform ID. -/
def countUsers (rows : List User) (slackUser : String) : Nat :=
  (rows.filter (fun r => r.SlackUser = slackUser)).length

/-- The lookup of `UserExistInDB` on a store: the chain returns its handle,
with the error of `First` when no row matches, and counts the rows whose
`slack_user` is the platform ID of the record. -/
def Store.lookup {τ : Type} (st : Store τ) (u : User) : Lookup :=
  { handle := some { Error := if countUsers st.users u.SlackUser = 0
                              then some "record not found" else none },
    count := countUsers st.users u.SlackUser }

/-- The question and answer writes of the database package, left open: they
act on the other tables only. -/
structure Writes (τ : Type) where
  UpdateUserTableWithQuestion : τ → User → Question → τ × Option DBError × Nat
  UpdateUserTableWithAnswer : τ → User → Answer → τ × Option DBError
  UpdateQuestionTableWithAnswer : τ → Question → Answer → τ × Option DBError × Nat

/-- Modelled from the spec: the missing `UpdateUsers` of the database package
inserts the given user as a new row; `UserExistInDB` is the function of
src/db.go run on the store; the other writes leave the User rows alone. -/
def storeDB {τ : Type} (w : Writes τ) : Database (Store τ) where
  UserExistInDB := fun st u => UserExistInDB st.lookup u
  UpdateUsers := fun st u => { st with users := st.users ++ [u] }
  UpdateUserTableWithQuestion := fun st u q =>
    let (t, e, i) := w.UpdateUserTableWithQuestion st.tables u q
    ({ st with tables := t }, e, i)
  UpdateUserTableWithAnswer := fun st u a =>
    let (t, e) := w.UpdateUserTableWithAnswer st.tables u a
    ({ st with tables := t }, e)
  UpdateQuestionTableWithAnswer := fun st q a =>
    let (t, e, i) := w.UpdateQuestionTableWithAnswer st.tables q a
    ({ st with tables := t }, e, i)

/-- At most one User row per platform ID. -/
def UniqueUsers (rows : List User) : Prop := (rows.map (fun r => r.SlackUser)).Nodup

/-- The eight spellings that the `case` conditions of the `switch` test. -/
def commandPrefixes : List String :=
  ["!q ", "!Q ", "!lq", "!LQ", "!qna ", "!QnA ", "!a ", "!A "]

/-- The message text `m` begins with `p`. -/
def beginsWith (m p : String) : Bool := m.data.take p.length == p.data

/-- The number written by a string of decimal digits. -/
def decimalValue (ds : List Char) : Nat :=
  ds.foldl (fun n c => n * 10 + (c.toNat - 48)) 0

/-- Every `UpdateUsers` among the calls of an arm comes right after a
`UserExistInDB` for the same record that returned false on the store the
message started from. -/
def Guarded {σ : Type} (db : Database σ) (s : σ) (calls : List Call) : Prop :=
  ∀ u, Call.UpdateUsers u ∈ calls →
    Call.UserExistInDB u false ∈ calls ∧ db.UserExistInDB s u = false

/-- The User rows after a step: unchanged, or one row more, for a platform ID
that had no row. -/
def Grows {τ : Type} (st st2 : Store τ) : Prop :=
  st2.users = st.users ∨
    ∃ u, countUsers st.users u.SlackUser = 0 ∧ st2.users = st.users ++ [u]

/-! ## Sample collaborators -/

/-- A resolved profile. -/
def sampleInfo : SlackUserInfo :=
  { ID := "U1",
    Profile := { RealName := "Ann", RealNameNormalized := "ann", Title := "dev",
                 Image32 := "a.png" } }

/-- Writes that all succeed; questions get ID 7. -/
def okWrites : Writes Unit where
  UpdateUserTableWithQuestion := fun t _ _ => (t, none, 7)
  UpdateUserTableWithAnswer := fun t _ _ => (t, none)
  UpdateQuestionTableWithAnswer := fun t _ _ => (t, none, 0)

/-- Writes in which the user-answer association fails and the question-answer
association succeeds. -/
def firstWriteFails : Writes Unit where
  UpdateUserTableWithQuestion := fun t _ _ => (t, none, 7)
  UpdateUserTableWithAnswer := fun t _ _ => (t, some (.other "connection refused"))
  UpdateQuestionTableWithAnswer := fun t _ _ => (t, none, 0)

/-- Writes in which the question write fails for a reason other than a
uniqueness violation. -/
def connectionDown : Writes Unit where
  UpdateUserTableWithQuestion := fun t _ _ => (t, some (.other "connection refused"), 0)
  UpdateUserTableWithAnswer := fun t _ _ => (t, some (.other "connection refused"))
  UpdateQuestionTableWithAnswer := fun t _ _ => (t, some (.other "connection refused"), 0)

/-- Spare capacity of `[]rune(message)` under the Go compiler when the slice
does not escape, as in `CommandParser`: the conversion uses a buffer of 32
runes, so a message of up to 32 runes gets capacity 32. -/
def stackSpare (n : Nat) : Nat := 32 - n

/-- Collaborators with a working profile lookup, the rune conversion of the Go
compiler and the store of User rows. -/
def sampleEnv (w : Writes Unit) : Env (Store Unit) :=
  { GetUserInfo := fun _ => (some sampleInfo, none), spare := stackSpare, DB := storeDB w }

/-- Collaborators whose profile lookup fails: nil pointer and an error. -/
def noProfileEnv : Env (Store Unit) :=
  { GetUserInfo := fun _ => (none, some "user_not_found"), spare := stackSpare,
    DB := storeDB okWrites }

/-- The empty store. -/
def emptyStore : Store Unit := { users := [], tables := () }

/-- A lookup that reports an error and leaves `count` at zero. -/
def failedLookup : User → Lookup :=
  fun _ => { handle := some { Error := some "record not found" }, count := 0 }

/-! ## Basic facts about the run-time model -/

theorem mk_eq_iff (l : List Char) (s : String) : String.mk l = s ↔ l = s.data := by
  rw [String.ext_iff]

theorem sliceTo_three (spare : Nat → Nat) (m : String) (c1 c2 c3 : Char) (rest : List Char)
    (h : m.data = c1 :: c2 :: c3 :: rest) : (runes spare m).sliceTo 3 = some [c1, c2, c3] := by
  simp [runes, RuneSlice.sliceTo, h]
  omega

theorem sliceTo_five (spare : Nat → Nat) (m : String) (c1 c2 c3 c4 c5 : Char) (rest : List Char)
    (h : m.data = c1 :: c2 :: c3 :: c4 :: c5 :: rest) :
    (runes spare m).sliceTo 5 = some [c1, c2, c3, c4, c5] := by
  simp [runes, RuneSlice.sliceTo, h]
  omega

theorem sliceFrom_three (spare : Nat → Nat) (m : String) (c1 c2 c3 : Char) (rest : List Char)
    (h : m.data = c1 :: c2 :: c3 :: rest) : (runes spare m).sliceFrom 3 = some rest := by
  simp [runes, RuneSlice.sliceFrom, h]

theorem sliceFrom_five (spare : Nat → Nat) (m : String) (c1 c2 c3 c4 c5 : Char) (rest : List Char)
    (h : m.data = c1 :: c2 :: c3 :: c4 :: c5 :: rest) :
    (runes spare m).sliceFrom 5 = some rest := by
  simp [runes, RuneSlice.sliceFrom, h]

/-- The first five elements of a slice that starts with three given runes
start with the same three runes. -/
theorem sliceTo_five_head (spare : Nat → Nat) (m : String) (c1 c2 c3 : Char) (rest p5 : List Char)
    (h : m.data = c1 :: c2 :: c3 :: rest) (h5 : (runes spare m).sliceTo 5 = some p5) :
    ∃ t, p5 = c1 :: c2 :: c3 :: t := by
  simp only [runes, RuneSlice.sliceTo, h] at h5
  split at h5
  · simp at h5
    exact ⟨_, h5.symm⟩
  · simp at h5

theorem dispatch_q {σ : Type} (env : Env σ) (s : σ) (ch : String) (ui : Option SlackUserInfo)
    (m : String) (rest : List Char) (h : m.data = '!' :: 'q' :: ' ' :: rest) :
    dispatch env s ch ui (runes env.spare m) = caseQ env s ch ui (runes env.spare m) := by
  simp [dispatch, sliceTo_three _ _ _ _ _ _ h]

theorem dispatch_Q {σ : Type} (env : Env σ) (s : σ) (ch : String) (ui : Option SlackUserInfo)
    (m : String) (rest : List Char) (h : m.data = '!' :: 'Q' :: ' ' :: rest) :
    dispatch env s ch ui (runes env.spare m) = caseQ env s ch ui (runes env.spare m) := by
  simp [dispatch, sliceTo_three _ _ _ _ _ _ h]

theorem dispatch_lq {σ : Type} (env : Env σ) (s : σ) (ch : String) (ui : Option SlackUserInfo)
    (m : String) (rest : List Char) (h : m.data = '!' :: 'l' :: 'q' :: rest) :
    dispatch env s ch ui (runes env.spare m) = caseLq s ch := by
  simp [dispatch, sliceTo_three _ _ _ _ _ _ h]

theorem dispatch_LQ {σ : Type} (env : Env σ) (s : σ) (ch : String) (ui : Option SlackUserInfo)
    (m : String) (rest : List Char) (h : m.data = '!' :: 'L' :: 'Q' :: rest) :
    dispatch env s ch ui (runes env.spare m) = caseLq s ch := by
  simp [dispatch, sliceTo_three _ _ _ _ _ _ h]

theorem dispatch_qna {σ : Type} (env : Env σ) (s : σ) (ch : String) (ui : Option SlackUserInfo)
    (m : String) (rest : List Char) (h : m.data = '!' :: 'q' :: 'n' :: 'a' :: ' ' :: rest) :
    dispatch env s ch ui (runes env.spare m) = caseQna s ch (runes env.spare m) := by
  simp [dispatch, sliceTo_three _ _ _ _ _ _ h, sliceTo_five _ _ _ _ _ _ _ _ h]

theorem dispatch_QnA {σ : Type} (env : Env σ) (s : σ) (ch : String) (ui : Option SlackUserInfo)
    (m : String) (rest : List Char) (h : m.data = '!' :: 'Q' :: 'n' :: 'A' :: ' ' :: rest) :
    dispatch env s ch ui (runes env.spare m) = caseQna s ch (runes env.spare m) := by
  simp [dispatch, sliceTo_three _ _ _ _ _ _ h, sliceTo_five _ _ _ _ _ _ _ _ h]

/-- A message that starts with `!a ` or `!A ` reaches the answer arm when
`msgSplit[0:5]` is in range, and panics in the `!qna` condition otherwise. -/
theorem dispatch_a {σ : Type} (env : Env σ) (s : σ) (ch : String) (ui : Option SlackUserInfo)
    (m : String) (c : Char) (rest : List Char) (hc : c = 'a' ∨ c = 'A')
    (h : m.data = '!' :: c :: ' ' :: rest) :
    dispatch env s ch ui (runes env.spare m) =
      if 5 ≤ m.length + env.spare m.length then caseA env s ch ui (runes env.spare m)
      else ⟨s, [], some .sliceOutOfRange, NewOutgoingMessage "" ch⟩ := by
  have h3 := sliceTo_three env.spare m _ _ _ _ h
  by_cases hcap : 5 ≤ m.length + env.spare m.length
  · have h5 : ∃ p5, (runes env.spare m).sliceTo 5 = some p5 := by
      simp [runes, RuneSlice.sliceTo, hcap]
    obtain ⟨p5, h5⟩ := h5
    obtain ⟨t, ht⟩ := sliceTo_five_head env.spare m _ _ _ _ p5 h h5
    subst ht
    rcases hc with rfl | rfl <;> simp [dispatch, h3, h5, hcap, mk_eq_iff]
  · have h5 : (runes env.spare m).sliceTo 5 = none := by
      simp [runes, RuneSlice.sliceTo, hcap]
    rcases hc with rfl | rfl <;> simp [dispatch, h3, h5, hcap, mk_eq_iff]

/-! ## The arms, with the database results named -/

theorem caseQ_some {σ : Type} (env : Env σ) (s : σ) (ch : String) (info : SlackUserInfo)
    (ms : RuneSlice) (tail : List Char) (h : ms.sliceFrom 3 = some tail) :
    caseQ env s ch (some info) ms =
      (let q := newQuestion (String.mk tail) ch info
       let user := questionUser info q
       let e := ensureUser env.DB s user
       let w := env.DB.UpdateUserTableWithQuestion e.1 user q
       ⟨w.1, e.2 ++ [.UpdateUserTableWithQuestion user q], none,
         NewOutgoingMessage
           (match w.2.1 with
            | some _ => alreadyAskedReply
            | none => questionThanks info.Profile.RealName w.2.2) ch⟩) := by
  simp only [caseQ, h]
  rfl

theorem caseA_some {σ : Type} (env : Env σ) (s : σ) (ch : String) (info : SlackUserInfo)
    (ms : RuneSlice) (tail : List Char) (p0 : String) (rest : List String)
    (h : ms.sliceFrom 3 = some tail) (hf : Fields (String.mk tail) = p0 :: rest)
    (hl : len (Join rest " ") ≠ 0) :
    caseA env s ch (some info) ms =
      (let a := newAnswer (Join rest " ") (Atoi p0).1 ch info
       let user := answerUser info a
       let e := ensureUser env.DB s user
       let w1 := env.DB.UpdateUserTableWithAnswer e.1 user a
       let q := answeredQuestion a
       let w2 := env.DB.UpdateQuestionTableWithAnswer w1.1 q a
       ⟨w2.1, e.2 ++ [.UpdateUserTableWithAnswer user a, .UpdateQuestionTableWithAnswer q a], none,
         NewOutgoingMessage
           (if w2.2.1.isSome then
              "I had problems storing your provided answer in the DB. Did you specify the Question ID correctly?"
            else answerThanks info.Profile.RealName w2.2.2) ch⟩) := by
  simp only [caseA, h, hf]
  have hl2 : (len (Join rest " ") != 0) = true := by simpa using hl
  simp only [hl2, if_true]
  rfl

theorem caseA_nil {σ : Type} (env : Env σ) (s : σ) (ch : String)
    (ms : RuneSlice) (tail : List Char) (p0 : String) (rest : List String)
    (h : ms.sliceFrom 3 = some tail) (hf : Fields (String.mk tail) = p0 :: rest)
    (hl : len (Join rest " ") ≠ 0) :
    caseA env s ch none ms = ⟨s, [], some .nilDereference, NewOutgoingMessage "" ch⟩ := by
  simp only [caseA, h, hf]
  have hl2 : (len (Join rest " ") != 0) = true := by simpa using hl
  simp only [hl2, if_true]

/-! ## Whole-message results -/

theorem sentTexts_append (xs ys : List Call) :
    sentTexts (xs ++ ys) = sentTexts xs ++ sentTexts ys := by
  induction xs with
  | nil => rfl
  | cons c cs ih => cases c <;> simp [sentTexts, ih]

theorem builtAnswers_append (xs ys : List Call) :
    builtAnswers (xs ++ ys) = builtAnswers xs ++ builtAnswers ys := by
  induction xs with
  | nil => rfl
  | cons c cs ih => cases c <;> simp [builtAnswers, ih]

theorem ensureUser_calls {σ : Type} (db : Database σ) (s : σ) (u : User) :
    (ensureUser db s u).2 =
      if db.UserExistInDB s u then [.UserExistInDB u true]
      else [.UserExistInDB u false, .UpdateUsers u] := by
  unfold ensureUser
  cases h : db.UserExistInDB s u <;> simp

theorem ensureUser_db {σ : Type} (db : Database σ) (s : σ) (u : User) :
    (ensureUser db s u).1 = if db.UserExistInDB s u then s else db.UpdateUsers s u := by
  unfold ensureUser
  cases h : db.UserExistInDB s u <;> simp

theorem sentTexts_ensureUser {σ : Type} (db : Database σ) (s : σ) (u : User) :
    sentTexts (ensureUser db s u).2 = [] := by
  rw [ensureUser_calls]
  split <;> rfl

theorem builtAnswers_ensureUser {σ : Type} (db : Database σ) (s : σ) (u : User) :
    builtAnswers (ensureUser db s u).2 = [] := by
  rw [ensureUser_calls]
  split <;> rfl

/-- A well-formed answer message from a resolved user: the whole step. -/
theorem handleMessage_answer {σ : Type} (env : Env σ) (s : σ) (user ch m : String)
    (info : SlackUserInfo) (e : Option String) (c : Char) (tail : List Char)
    (p0 : String) (rest : List String)
    (hinfo : env.GetUserInfo user = (some info, e)) (hc : c = 'a' ∨ c = 'A')
    (hm : m.data = '!' :: c :: ' ' :: tail) (hcap : 5 ≤ m.length + env.spare m.length)
    (hf : Fields (String.mk tail) = p0 :: rest) (hl : len (Join rest " ") ≠ 0) :
    handleMessage env s ⟨user, ch, m⟩ =
      (let a := newAnswer (Join rest " ") (Atoi p0).1 ch info
       let u := answerUser info a
       let en := ensureUser env.DB s u
       let w1 := env.DB.UpdateUserTableWithAnswer en.1 u a
       let w2 := env.DB.UpdateQuestionTableWithAnswer w1.1 (answeredQuestion a) a
       ⟨w2.1,
        .GetUserInfo user ::
          ((en.2 ++ [.UpdateUserTableWithAnswer u a,
                     .UpdateQuestionTableWithAnswer (answeredQuestion a) a]) ++
            [.SendMessage (NewOutgoingMessage
              (if w2.2.1.isSome then
                 "I had problems storing your provided answer in the DB. Did you specify the Question ID correctly?"
               else answerThanks info.Profile.RealName w2.2.2) ch)]),
        none⟩) := by
  simp only [handleMessage, hinfo, dispatch_a env s ch _ m c tail hc hm, hcap, if_true,
    caseA_some env s ch info _ tail p0 rest (sliceFrom_three env.spare m _ _ _ _ hm) hf hl]

/-- A question message from a resolved user: the whole step. -/
theorem handleMessage_question {σ : Type} (env : Env σ) (s : σ) (user ch m : String)
    (info : SlackUserInfo) (e : Option String) (c : Char) (tail : List Char)
    (hinfo : env.GetUserInfo user = (some info, e)) (hc : c = 'q' ∨ c = 'Q')
    (hm : m.data = '!' :: c :: ' ' :: tail) :
    handleMessage env s ⟨user, ch, m⟩ =
      (let q := newQuestion (String.mk tail) ch info
       let u := questionUser info q
       let en := ensureUser env.DB s u
       let w := env.DB.UpdateUserTableWithQuestion en.1 u q
       ⟨w.1,
        .GetUserInfo user ::
          ((en.2 ++ [.UpdateUserTableWithQuestion u q]) ++
            [.SendMessage (NewOutgoingMessage
              (match w.2.1 with
               | some _ => alreadyAskedReply
               | none => questionThanks info.Profile.RealName w.2.2) ch)]),
        none⟩) := by
  have hd : dispatch env s ch (some info) (runes env.spare m)
      = caseQ env s ch (some info) (runes env.spare m) := by
    rcases hc with rfl | rfl
    · exact dispatch_q env s ch _ m tail hm
    · exact dispatch_Q env s ch _ m tail hm
  simp only [handleMessage, hinfo, hd,
    caseQ_some env s ch info _ tail (sliceFrom_three env.spare m _ _ _ _ hm)]

theorem answerThanks_ne_includeID (n : String) (i : Nat) : answerThanks n i ≠ includeIDReply := by
  intro h
  have h2 : (answerThanks n i).data.head? = some 'T' := rfl
  have h3 : includeIDReply.data.head? = some 'P' := rfl
  rw [h, h3] at h2
  exact absurd h2 (by decide)

theorem questionThanks_ne_alreadyAsked (n : String) (i : Nat) :
    questionThanks n i ≠ alreadyAskedReply := by
  intro h
  have h2 : (questionThanks n i).data.head? = some 'T' := rfl
  have h3 : alreadyAskedReply.data.head? = some 'S' := rfl
  rw [h, h3] at h2
  exact absurd h2 (by decide)

theorem FieldsFrom_spaces (ws : List Char) (h : ∀ c ∈ ws, IsSpace c = true) :
    FieldsFrom ws [] = [] := by
  induction ws with
  | nil => rfl
  | cons c cs ih =>
    have hc : IsSpace c = true := h c (List.mem_cons_self _ _)
    have hcs : ∀ d ∈ cs, IsSpace d = true := fun d hd => h d (List.mem_cons_of_mem _ hd)
    simp [FieldsFrom, hc, ih hcs]

theorem caseQ_congr {σ : Type} (env : Env σ) (s : σ) (ch : String) (ui : Option SlackUserInfo)
    (ms1 ms2 : RuneSlice) (h : ms1.sliceFrom 3 = ms2.sliceFrom 3) :
    caseQ env s ch ui ms1 = caseQ env s ch ui ms2 := by
  simp only [caseQ, h]

theorem caseQna_congr {σ : Type} (s : σ) (ch : String)
    (ms1 ms2 : RuneSlice) (h : ms1.sliceFrom 5 = ms2.sliceFrom 5) :
    caseQna s ch ms1 = caseQna s ch ms2 := by
  simp only [caseQna, h]

theorem caseA_congr {σ : Type} (env : Env σ) (s : σ) (ch : String) (ui : Option SlackUserInfo)
    (ms1 ms2 : RuneSlice) (h : ms1.sliceFrom 3 = ms2.sliceFrom 3) :
    caseA env s ch ui ms1 = caseA env s ch ui ms2 := by
  simp only [caseA, h]

/-- A slice `s[0:n]` that equals a text without zero runes lies within the
visible elements. -/
theorem take_of_sliceTo (spare : Nat → Nat) (m : String) (n : Nat) (p l : List Char)
    (h : (runes spare m).sliceTo n = some p) (hp : p = l) (hlen : l.length = n)
    (hz : ∀ c ∈ l, c ≠ Char.ofNat 0) : m.data.take n = l := by
  subst hp
  simp only [runes, RuneSlice.sliceTo] at h
  split at h
  · simp only [Option.some.injEq] at h
    rw [List.take_append_eq_append_take] at h
    have hz2 : List.take (n - m.data.length) (List.replicate (spare m.length) (Char.ofNat 0)) = [] := by
      cases hr : List.take (n - m.data.length) (List.replicate (spare m.length) (Char.ofNat 0)) with
      | nil => rfl
      | cons c cs =>
        exfalso
        have hc1 : c ∈ List.take (n - m.data.length) (List.replicate (spare m.length) (Char.ofNat 0)) := by
          rw [hr]; exact List.mem_cons_self _ _
        have hc2 : c = Char.ofNat 0 := List.eq_of_mem_replicate (List.mem_of_mem_take hc1)
        have hc3 : c ∈ p := by
          rw [← h, hr]
          exact List.mem_append_right _ (List.mem_cons_self _ _)
        exact hz c hc3 hc2
    rw [hz2, List.append_nil] at h
    exact h
  · exact absurd h (by simp)

theorem not_match_of_not_beginsWith (spare : Nat → Nat) (m lit : String) (n : Nat) (p : List Char)
    (h : (runes spare m).sliceTo n = some p) (hlen : lit.length = n)
    (hz : ∀ c ∈ lit.data, c ≠ Char.ofNat 0) (hb : beginsWith m lit = false) :
    ¬ (String.mk p = lit) := by
  intro heq
  have hp : p = lit.data := (mk_eq_iff p lit).1 heq
  have ht := take_of_sliceTo spare m n p lit.data h hp hlen hz
  simp [beginsWith, hlen, ht] at hb

/-! ## The guarded insert and the rows of the User table -/

theorem guarded_ensureUser {σ : Type} (db : Database σ) (s : σ) (u : User) (tl : List Call)
    (htl : ∀ v, Call.UpdateUsers v ∉ tl) : Guarded db s ((ensureUser db s u).2 ++ tl) := by
  intro v hv
  rw [ensureUser_calls] at hv ⊢
  cases hx : db.UserExistInDB s u
  · simp only [hx] at hv ⊢
    simp only [Bool.false_eq_true, if_false, List.cons_append, List.nil_append, List.mem_cons] at hv ⊢
    rcases hv with hv | hv | hv
    · cases hv
    · cases hv
      exact ⟨Or.inl rfl, hx⟩
    · exact absurd hv (htl v)
  · simp only [hx] at hv
    simp only [if_true, List.cons_append, List.nil_append, List.mem_cons] at hv
    rcases hv with hv | hv
    · cases hv
    · exact absurd hv (htl v)

theorem guarded_of_no_insert {σ : Type} (db : Database σ) (s : σ) (calls : List Call)
    (h : ∀ v, Call.UpdateUsers v ∉ calls) : Guarded db s calls :=
  fun v hv => absurd hv (h v)

theorem guarded_caseQ {σ : Type} (env : Env σ) (s : σ) (ch : String)
    (ui : Option SlackUserInfo) (ms : RuneSlice) :
    Guarded env.DB s (caseQ env s ch ui ms).calls := by
  unfold caseQ
  split
  · exact guarded_of_no_insert _ _ _ (by simp)
  · split
    · exact guarded_of_no_insert _ _ _ (by simp)
    · exact guarded_ensureUser _ _ _ _ (by simp)

theorem guarded_caseA {σ : Type} (env : Env σ) (s : σ) (ch : String)
    (ui : Option SlackUserInfo) (ms : RuneSlice) :
    Guarded env.DB s (caseA env s ch ui ms).calls := by
  unfold caseA
  split
  · exact guarded_of_no_insert _ _ _ (by simp)
  · split
    · exact guarded_of_no_insert _ _ _ (by simp)
    · simp only
      split
      · split
        · exact guarded_of_no_insert _ _ _ (by simp)
        · exact guarded_ensureUser _ _ _ _ (by simp)
      · exact guarded_of_no_insert _ _ _ (by simp)

theorem guarded_caseQna {σ : Type} (db : Database σ) (s : σ) (ch : String) (ms : RuneSlice) :
    Guarded db s (caseQna s ch ms).calls := by
  unfold caseQna
  split
  · exact guarded_of_no_insert _ _ _ (by simp)
  · split
    · exact guarded_of_no_insert _ _ _ (by simp)
    · exact guarded_of_no_insert _ _ _ (by simp)

theorem guarded_dispatch {σ : Type} (env : Env σ) (s : σ) (ch : String)
    (ui : Option SlackUserInfo) (ms : RuneSlice) :
    Guarded env.DB s (dispatch env s ch ui ms).calls := by
  unfold dispatch
  simp only
  split
  · exact guarded_of_no_insert _ _ _ (by simp)
  · split
    · exact guarded_caseQ env s ch ui ms
    · split
      · exact guarded_of_no_insert _ _ _ (by simp [caseLq])
      · split
        · exact guarded_of_no_insert _ _ _ (by simp)
        · split
          · exact guarded_caseQna env.DB s ch ms
          · split
            · exact guarded_caseA env s ch ui ms
            · exact guarded_of_no_insert _ _ _ (by simp)

/-- The step of one message in terms of the arm taken. -/
theorem handleMessage_eq {σ : Type} (env : Env σ) (s : σ) (m : Message) :
    (handleMessage env s m).db
        = (dispatch env s m.Channel (env.GetUserInfo m.User).1 (runes env.spare m.Message)).db
      ∧ (handleMessage env s m).fault
        = (dispatch env s m.Channel (env.GetUserInfo m.User).1 (runes env.spare m.Message)).fault
      ∧ (handleMessage env s m).calls
        = .GetUserInfo m.User ::
            ((dispatch env s m.Channel (env.GetUserInfo m.User).1
                (runes env.spare m.Message)).calls ++
              if (dispatch env s m.Channel (env.GetUserInfo m.User).1
                    (runes env.spare m.Message)).fault = none
              then [.SendMessage (dispatch env s m.Channel (env.GetUserInfo m.User).1
                    (runes env.spare m.Message)).outMsg]
              else []) := by
  unfold handleMessage
  cases hf : (dispatch env s m.Channel (env.GetUserInfo m.User).1
      (runes env.spare m.Message)).fault <;> simp [hf]

theorem guarded_handleMessage {σ : Type} (env : Env σ) (s : σ) (m : Message) :
    Guarded env.DB s (handleMessage env s m).calls := by
  intro u hu
  have hg := guarded_dispatch env s m.Channel (env.GetUserInfo m.User).1
    (runes env.spare m.Message) u
  rw [(handleMessage_eq env s m).2.2] at hu ⊢
  have hu2 : Call.UpdateUsers u ∈ (dispatch env s m.Channel (env.GetUserInfo m.User).1
      (runes env.spare m.Message)).calls := by
    simp only [List.mem_cons, List.mem_append] at hu
    rcases hu with hu | hu | hu
    · cases hu
    · exact hu
    · split at hu
      · simp at hu
      · simp at hu
  obtain ⟨h1, h2⟩ := hg hu2
  exact ⟨List.mem_cons_of_mem _ (List.mem_append_left _ h1), h2⟩

theorem storeDB_exist {τ : Type} (w : Writes τ) (st : Store τ) (u : User) :
    (storeDB w).UserExistInDB st u = false ↔ countUsers st.users u.SlackUser = 0 := by
  simp [storeDB, UserExistInDB, Store.lookup]

theorem grows_ensureUser {τ : Type} (w : Writes τ) (st : Store τ) (u : User) :
    Grows st (ensureUser (storeDB w) st u).1 := by
  rw [ensureUser_db]
  cases hx : (storeDB w).UserExistInDB st u
  · right
    exact ⟨u, (storeDB_exist w st u).1 hx, by simp [storeDB]⟩
  · left
    simp

theorem grows_refl {τ : Type} (st : Store τ) : Grows st st := Or.inl rfl

theorem grows_caseQ {τ : Type} (g : String → Option SlackUserInfo × Option String)
    (sp : Nat → Nat) (w : Writes τ) (st : Store τ) (ch : String)
    (ui : Option SlackUserInfo) (ms : RuneSlice) :
    Grows st (caseQ ⟨g, sp, storeDB w⟩ st ch ui ms).db := by
  unfold caseQ
  split
  · exact grows_refl st
  · split
    · exact grows_refl st
    · exact grows_ensureUser w st _

theorem grows_caseA {τ : Type} (g : String → Option SlackUserInfo × Option String)
    (sp : Nat → Nat) (w : Writes τ) (st : Store τ) (ch : String)
    (ui : Option SlackUserInfo) (ms : RuneSlice) :
    Grows st (caseA ⟨g, sp, storeDB w⟩ st ch ui ms).db := by
  unfold caseA
  split
  · exact grows_refl st
  · split
    · exact grows_refl st
    · simp only
      split
      · split
        · exact grows_refl st
        · exact grows_ensureUser w st _
      · exact grows_refl st

theorem grows_caseQna {τ : Type} (st : Store τ) (ch : String) (ms : RuneSlice) :
    Grows st (caseQna st ch ms).db := by
  unfold caseQna
  split
  · exact grows_refl st
  · split
    · exact grows_refl st
    · exact grows_refl st

theorem grows_dispatch {τ : Type} (g : String → Option SlackUserInfo × Option String)
    (sp : Nat → Nat) (w : Writes τ) (st : Store τ) (ch : String)
    (ui : Option SlackUserInfo) (ms : RuneSlice) :
    Grows st (dispatch ⟨g, sp, storeDB w⟩ st ch ui ms).db := by
  unfold dispatch
  simp only
  split
  · exact grows_refl st
  · split
    · exact grows_caseQ g sp w st ch ui ms
    · split
      · exact grows_refl st
      · split
        · exact grows_refl st
        · split
          · exact grows_caseQna st ch ms
          · split
            · exact grows_caseA g sp w st ch ui ms
            · exact grows_refl st

theorem grows_handleMessage {τ : Type} (g : String → Option SlackUserInfo × Option String)
    (sp : Nat → Nat) (w : Writes τ) (st : Store τ) (m : Message) :
    Grows st (handleMessage ⟨g, sp, storeDB w⟩ st m).db := by
  rw [(handleMessage_eq _ st m).1]
  exact grows_dispatch g sp w st _ _ _

theorem countUsers_zero_iff (rows : List User) (id : String) :
    countUsers rows id = 0 ↔ id ∉ rows.map (fun r => r.SlackUser) := by
  simp [countUsers, List.filter_eq_nil_iff]

theorem unique_of_grows {τ : Type} (st st2 : Store τ) (hg : Grows st st2)
    (hu : UniqueUsers st.users) : UniqueUsers st2.users := by
  rcases hg with h | ⟨u, h0, h⟩
  · rw [h]; exact hu
  · rw [h]
    unfold UniqueUsers at hu ⊢
    rw [List.map_append, List.nodup_append]
    refine ⟨hu, by simp, ?_⟩
    intro a ha hb
    simp only [List.map_cons, List.map_nil, List.mem_singleton] at hb
    subst hb
    exact (countUsers_zero_iff _ _).1 h0 ha

theorem unique_CommandParser {τ : Type} (g : String → Option SlackUserInfo × Option String)
    (sp : Nat → Nat) (w : Writes τ) (msgs : List Message) :
    ∀ st : Store τ, UniqueUsers st.users →
      UniqueUsers (CommandParser ⟨g, sp, storeDB w⟩ st msgs).db.users := by
  induction msgs with
  | nil => intro st hu; exact hu
  | cons m rest ih =>
    intro st hu
    have h1 := unique_of_grows st _ (grows_handleMessage g sp w st m) hu
    unfold CommandParser
    simp only
    split
    · exact h1
    · exact ih _ h1

theorem question_step_users {τ : Type} (g : String → Option SlackUserInfo × Option String)
    (sp : Nat → Nat) (w : Writes τ) (st : Store τ) (user ch t : String)
    (info : SlackUserInfo) (e : Option String) (hg : g user = (some info, e)) :
    (handleMessage ⟨g, sp, storeDB w⟩ st ⟨user, ch, "!q " ++ t⟩).fault = none
      ∧ (handleMessage ⟨g, sp, storeDB w⟩ st ⟨user, ch, "!q " ++ t⟩).db.users
        = if countUsers st.users info.ID = 0
          then st.users ++ [questionUser info (newQuestion t ch info)]
          else st.users := by
  have hm : ("!q " ++ t).data = '!' :: 'q' :: ' ' :: t.data := rfl
  rw [handleMessage_question ⟨g, sp, storeDB w⟩ st user ch _ info e 'q' _ hg (Or.inl rfl) hm]
  refine ⟨rfl, ?_⟩
  have hmk : String.mk t.data = t := rfl
  simp only [ensureUser_db, hmk]
  by_cases hc : countUsers st.users info.ID = 0
  · have hx : (storeDB w).UserExistInDB st (questionUser info (newQuestion t ch info)) = false :=
      (storeDB_exist w st _).2 hc
    rw [if_pos hc, if_neg (by simp [hx])]
    simp [storeDB]
  · have hx : (storeDB w).UserExistInDB st (questionUser info (newQuestion t ch info)) = true := by
      cases hb : (storeDB w).UserExistInDB st (questionUser info (newQuestion t ch info))
      · exact absurd ((storeDB_exist w st _).1 hb) hc
      · rfl
    rw [if_neg hc, if_pos hx]
    simp [storeDB]

theorem countUsers_append (xs ys : List User) (id : String) :
    countUsers (xs ++ ys) id = countUsers xs id + countUsers ys id := by
  simp [countUsers]

/-! ## `strconv.Atoi` on decimal digits -/

theorem not_sign_of_isDigit (c : Char) (h : isDigit c = true) :
    (c == '-') = false ∧ (c == '+') = false := by
  constructor
  · cases hc : c == '-'
    · rfl
    · rw [beq_iff_eq] at hc
      subst hc
      exact absurd h (by decide)
  · cases hc : c == '+'
    · rfl
    · rw [beq_iff_eq] at hc
      subst hc
      exact absurd h (by decide)

theorem digit_lt (c : Char) (h : isDigit c = true) : c.toNat - 48 ≤ 9 := by
  simp only [isDigit, Bool.and_eq_true, decide_eq_true_eq] at h
  omega

theorem atoiLoop_digits (ds : List Char) (h : ∀ c ∈ ds, isDigit c = true) :
    ∀ n, atoiLoop ds n = some (ds.foldl (fun k c => k * 10 + (c.toNat - 48)) n) := by
  induction ds with
  | nil => intro n; rfl
  | cons c cs ih =>
    intro n
    have hc : isDigit c = true := h c (List.mem_cons_self _ _)
    simp only [atoiLoop, hc, if_true, List.foldl_cons]
    exact ih (fun d hd => h d (List.mem_cons_of_mem _ hd)) _

theorem foldl_digits_ge (ds : List Char) :
    ∀ n, n ≤ ds.foldl (fun k c => k * 10 + (c.toNat - 48)) n := by
  induction ds with
  | nil => intro n; exact Nat.le_refl _
  | cons c cs ih =>
    intro n
    simp only [List.foldl_cons]
    have := ih (n * 10 + (c.toNat - 48))
    omega

theorem parseUintLoop_digits (ds : List Char) (h : ∀ c ∈ ds, isDigit c = true) :
    ∀ n, ds.foldl (fun k c => k * 10 + (c.toNat - 48)) n < 2 ^ 64 →
      parseUintLoop ds n = (ds.foldl (fun k c => k * 10 + (c.toNat - 48)) n, none) := by
  induction ds with
  | nil => intro n _; rfl
  | cons c cs ih =>
    intro n hn
    have hc : isDigit c = true := h c (List.mem_cons_self _ _)
    simp only [List.foldl_cons] at hn ⊢
    have hge := foldl_digits_ge cs (n * 10 + (c.toNat - 48))
    have hd := digit_lt c hc
    have hsmall : n * 10 + (c.toNat - 48) < 2 ^ 64 := Nat.lt_of_le_of_lt hge hn
    have h1 : ¬ n ≥ uintCutoff := by
      unfold uintCutoff
      norm_num at hsmall ⊢
      omega
    have hm : (n * 10) % 2 ^ 64 = n * 10 := Nat.mod_eq_of_lt (by norm_num at hsmall ⊢; omega)
    have hn1 : (n * 10 + (c.toNat - 48)) % 2 ^ 64 = n * 10 + (c.toNat - 48) :=
      Nat.mod_eq_of_lt (by norm_num at hsmall ⊢; omega)
    have h2 : ¬ (n * 10 + (c.toNat - 48) < n * 10) := by omega
    have h3 : ¬ (n * 10 + (c.toNat - 48) > maxVal) := by
      unfold maxVal
      norm_num at hsmall ⊢
      omega
    simp only [parseUintLoop, hc, if_true, h1, if_false, hm, hn1, h2, h3, decide_False,
      Bool.or_self, Bool.false_eq_true]
    exact ih (fun d hd => h d (List.mem_cons_of_mem _ hd)) _ hn

theorem len_digits (ds : List Char) (h : ∀ c ∈ ds, isDigit c = true) :
    len (String.mk ds) = ds.length := by
  unfold len
  induction ds with
  | nil => rfl
  | cons c cs ih =>
    have hc : isDigit c = true := h c (List.mem_cons_self _ _)
    have hr : runeLen c = 1 := by
      simp only [isDigit, Bool.and_eq_true, decide_eq_true_eq] at hc
      unfold runeLen
      rw [if_pos (by omega)]
    simp only [List.map_cons, List.sum_cons, hr, List.length_cons]
    have := ih (fun d hd => h d (List.mem_cons_of_mem _ hd))
    simp only at this
    omega

theorem len_cons_ascii (c : Char) (cs : List Char) (hc : c.toNat < 128) :
    len (String.mk (c :: cs)) = 1 + len (String.mk cs) := by
  unfold len
  simp only [List.map_cons, List.sum_cons]
  unfold runeLen
  rw [if_pos hc]

/-- On an optional sign followed by a non-empty string of decimal digits whose
value fits a 64-bit `int`, `Atoi` returns that value and no error. -/
theorem Atoi_decimal (sign : String) (ds : List Char)
    (hs : sign = "" ∨ sign = "+" ∨ sign = "-") (hne : ds ≠ [])
    (h : ∀ c ∈ ds, isDigit c = true)
    (hlo : sign = "-" → decimalValue ds ≤ 2 ^ 63)
    (hhi : sign ≠ "-" → decimalValue ds < 2 ^ 63) :
    Atoi (sign ++ String.mk ds)
      = (if sign = "-" then -((decimalValue ds : Nat) : Int) else ((decimalValue ds : Nat) : Int),
         none) := by
  have h64 : decimalValue ds < 2 ^ 64 := by
    by_cases hm : sign = "-"
    · have := hlo hm
      norm_num at this ⊢
      omega
    · have := hhi hm
      norm_num at this ⊢
      omega
  unfold decimalValue at hlo hhi h64 ⊢
  rcases hs with rfl | rfl | rfl
  · -- no sign
    have hv := hhi (by decide)
    have hd : (("" : String) ++ String.mk ds) = String.mk ds := by
      apply String.ext
      simp [String.data_append]
    rw [hd, if_neg (by decide)]
    cases ds with
    | nil => exact absurd rfl hne
    | cons c cs =>
      have hc : isDigit c = true := h c (List.mem_cons_self _ _)
      obtain ⟨hm, hp⟩ := not_sign_of_isDigit c hc
      unfold Atoi
      rw [len_digits _ h]
      by_cases hfast : (decide (0 < (c :: cs).length) && decide ((c :: cs).length < 19)) = true
      · rw [if_pos hfast]
        simp only [hm, hp, Bool.or_self, Bool.false_eq_true, if_false, List.isEmpty_cons,
          atoiLoop_digits _ h 0]
      · rw [if_neg hfast]
        simp only [ParseInt, hm, hp, Bool.or_self, Bool.false_eq_true, if_false, ParseUint,
          List.isEmpty_cons, parseUintLoop_digits _ h 0 h64]
        simp
        simpa using hv
  · -- plus sign
    have hv := hhi (by decide)
    have hd : (("+" : String) ++ String.mk ds) = String.mk ('+' :: ds) := rfl
    rw [hd, if_neg (by decide)]
    have hemp : ds.isEmpty = false := by
      cases ds with
      | nil => exact absurd rfl hne
      | cons c cs => rfl
    unfold Atoi
    rw [len_cons_ascii '+' ds (by decide), len_digits _ h]
    by_cases hfast : (decide (0 < 1 + ds.length) && decide (1 + ds.length < 19)) = true
    · rw [if_pos hfast]
      simp [hemp, atoiLoop_digits _ h 0]
    · rw [if_neg hfast]
      have hpu : ParseUint ds = (List.foldl (fun k c => k * 10 + (c.toNat - 48)) 0 ds, none) := by
        unfold ParseUint
        rw [hemp, parseUintLoop_digits _ h 0 h64]
        rfl
      simp only [ParseInt]
      simp [hpu]
      simpa using hv
  · -- minus sign
    have hv := hlo rfl
    have hd : (("-" : String) ++ String.mk ds) = String.mk ('-' :: ds) := rfl
    rw [hd, if_pos rfl]
    have hemp : ds.isEmpty = false := by
      cases ds with
      | nil => exact absurd rfl hne
      | cons c cs => rfl
    unfold Atoi
    rw [len_cons_ascii '-' ds (by decide), len_digits _ h]
    by_cases hfast : (decide (0 < 1 + ds.length) && decide (1 + ds.length < 19)) = true
    · rw [if_pos hfast]
      simp [hemp, atoiLoop_digits _ h 0]
    · rw [if_neg hfast]
      have hpu : ParseUint ds = (List.foldl (fun k c => k * 10 + (c.toNat - 48)) 0 ds, none) := by
        unfold ParseUint
        rw [hemp, parseUintLoop_digits _ h 0 h64]
        rfl
      simp only [ParseInt]
      simp [hpu]
      simpa using hv

/-! ## `strings.Fields` and `strings.Join` -/

theorem not_space_of_isDigit (c : Char) (h : isDigit c = true) : IsSpace c = false := by
  simp only [isDigit, Bool.and_eq_true, decide_eq_true_eq] at h
  simp only [IsSpace, Bool.or_eq_false_iff, Bool.and_eq_false_iff, decide_eq_false_iff_not,
    beq_eq_false_iff_ne]
  omega

theorem FieldsFrom_token (tok : List Char) (h : ∀ c ∈ tok, IsSpace c = false) :
    ∀ (rest cur : List Char), FieldsFrom (tok ++ rest) cur = FieldsFrom rest (cur ++ tok) := by
  induction tok with
  | nil => intro rest cur; simp
  | cons c cs ih =>
    intro rest cur
    have hc : IsSpace c = false := h c (List.mem_cons_self _ _)
    show FieldsFrom (c :: (cs ++ rest)) cur = _
    simp only [FieldsFrom, hc, Bool.false_eq_true, if_false]
    rw [ih (fun d hd => h d (List.mem_cons_of_mem _ hd))]
    simp

theorem FieldsFrom_space (c : Char) (hc : IsSpace c = true) (rest cur : List Char)
    (hcur : cur ≠ []) : FieldsFrom (c :: rest) cur = String.mk cur :: FieldsFrom rest [] := by
  cases cur with
  | nil => exact absurd rfl hcur
  | cons a as => simp [FieldsFrom, hc]

theorem FieldsFrom_leading (ws : List Char) (h : ∀ c ∈ ws, IsSpace c = true) :
    ∀ rest, FieldsFrom (ws ++ rest) [] = FieldsFrom rest [] := by
  induction ws with
  | nil => intro rest; rfl
  | cons c cs ih =>
    intro rest
    have hc : IsSpace c = true := h c (List.mem_cons_self _ _)
    simp only [List.cons_append, FieldsFrom, hc, if_true, List.isEmpty_nil]
    exact ih (fun d hd => h d (List.mem_cons_of_mem _ hd)) rest

/-- Every field is a non-empty run of non-space runes. -/
theorem FieldsFrom_tokens (l : List Char) :
    ∀ cur, (∀ c ∈ cur, IsSpace c = false) →
      ∀ t ∈ FieldsFrom l cur, t.data ≠ [] ∧ ∀ c ∈ t.data, IsSpace c = false := by
  induction l with
  | nil =>
    intro cur hcur t ht
    cases cur with
    | nil => simp [FieldsFrom] at ht
    | cons a as =>
      simp only [FieldsFrom, List.isEmpty_cons, Bool.false_eq_true, if_false,
        List.mem_singleton] at ht
      subst ht
      exact ⟨by simp, hcur⟩
  | cons r rest ih =>
    intro cur hcur t ht
    cases hr : IsSpace r with
    | true =>
      cases cur with
      | nil =>
        simp only [FieldsFrom, hr, if_true, List.isEmpty_nil] at ht
        exact ih [] (by simp) t ht
      | cons a as =>
        simp only [FieldsFrom, hr, if_true, List.isEmpty_cons, Bool.false_eq_true, if_false,
          List.mem_cons] at ht
        rcases ht with ht | ht
        · subst ht
          exact ⟨by simp, hcur⟩
        · exact ih [] (by simp) t ht
    | false =>
      simp only [FieldsFrom, hr, Bool.false_eq_true, if_false] at ht
      refine ih (cur ++ [r]) ?_ t ht
      intro c hc
      simp only [List.mem_append, List.mem_singleton] at hc
      rcases hc with hc | hc
      · exact hcur c hc
      · subst hc; exact hr

theorem len_append (a b : String) : len (a ++ b) = len a + len b := by
  show ((a ++ b).data.map runeLen).sum = _
  rw [String.data_append, List.map_append, List.sum_append]
  rfl

theorem len_pos (a : String) (h : a.data ≠ []) : 0 < len a := by
  unfold len
  cases hd : a.data with
  | nil => exact absurd hd h
  | cons c cs =>
    have : 1 ≤ runeLen c := by
      unfold runeLen
      split_ifs <;> omega
    simp only [List.map_cons, List.sum_cons]
    omega

theorem len_Join_pos (a : String) (rest : List String) (h : a.data ≠ []) :
    len (Join (a :: rest) " ") ≠ 0 := by
  cases rest with
  | nil => exact Nat.pos_iff_ne_zero.1 (len_pos a h)
  | cons b bs =>
    simp only [Join, len_append]
    have := len_pos a h
    omega

/-- Splitting a text of single-spaced tokens gives the tokens back. -/
theorem Fields_Join (toks : List String)
    (h : ∀ t ∈ toks, t.data ≠ [] ∧ ∀ c ∈ t.data, IsSpace c = false) :
    Fields (Join toks " ") = toks := by
  unfold Fields
  induction toks with
  | nil => rfl
  | cons a rest ih =>
    obtain ⟨ha1, ha2⟩ := h a (List.mem_cons_self _ _)
    have hrest : ∀ t ∈ rest, t.data ≠ [] ∧ ∀ c ∈ t.data, IsSpace c = false :=
      fun t ht => h t (List.mem_cons_of_mem _ ht)
    cases rest with
    | nil =>
      have := FieldsFrom_token a.data ha2 [] []
      simp only [List.append_nil, List.nil_append] at this
      simp only [Join, this, FieldsFrom]
      cases hd : a.data with
      | nil => exact absurd hd ha1
      | cons c cs =>
        simp only [List.isEmpty_cons, Bool.false_eq_true, if_false]
        rw [← hd]
    | cons b bs =>
      have hd : (Join (a :: b :: bs) " ").data = a.data ++ ' ' :: (Join (b :: bs) " ").data := by
        simp only [Join, String.data_append]
        simp
      rw [hd, FieldsFrom_token a.data ha2, List.nil_append,
        FieldsFrom_space ' ' (by decide) _ _ ha1, ih hrest]

theorem Fields_id_sep_text (id sep text : String)
    (hid : id.data ≠ [] ∧ ∀ c ∈ id.data, IsSpace c = false)
    (hsep : sep.data ≠ [] ∧ ∀ c ∈ sep.data, IsSpace c = true) :
    Fields (String.mk (id.data ++ (sep.data ++ text.data))) = id :: Fields text := by
  unfold Fields
  show FieldsFrom (id.data ++ (sep.data ++ text.data)) [] = _
  rw [FieldsFrom_token id.data hid.2, List.nil_append]
  cases hs : sep.data with
  | nil => exact absurd hs hsep.1
  | cons c ws =>
    have hc : IsSpace c = true := hsep.2 c (by rw [hs]; exact List.mem_cons_self _ _)
    have hws : ∀ d ∈ ws, IsSpace d = true :=
      fun d hd => hsep.2 d (by rw [hs]; exact List.mem_cons_of_mem _ hd)
    rw [List.cons_append, FieldsFrom_space c hc _ _ hid.1, FieldsFrom_leading ws hws]

theorem signed_token (sign digits : String) (hs : sign = "" ∨ sign = "+" ∨ sign = "-")
    (hd : digits.data ≠ [] ∧ ∀ c ∈ digits.data, isDigit c = true) :
    (sign ++ digits).data ≠ [] ∧ ∀ c ∈ (sign ++ digits).data, IsSpace c = false := by
  have hnd : ∀ c ∈ digits.data, IsSpace c = false :=
    fun c hc => not_space_of_isDigit c (hd.2 c hc)
  rw [String.data_append]
  refine ⟨by simp [hd.1], ?_⟩
  intro c hc
  rw [List.mem_append] at hc
  rcases hc with hc | hc
  · rcases hs with rfl | rfl | rfl
    · exact absurd hc (by simp)
    · have : c = '+' := by simpa using hc
      subst this
      decide
    · have : c = '-' := by simpa using hc
      subst this
      decide
  · exact hnd c hc

/-- The shape of an answer message: `!a `, a token, white space, a text with at
least one token. -/
theorem answer_shape (spare : Nat → Nat) (tok sep text : String)
    (htok : tok.data ≠ [] ∧ ∀ c ∈ tok.data, IsSpace c = false)
    (hsep : sep.data ≠ [] ∧ ∀ c ∈ sep.data, IsSpace c = true)
    (htext : Fields text ≠ []) :
    ("!a " ++ tok ++ sep ++ text).data
        = '!' :: 'a' :: ' ' :: (tok.data ++ (sep.data ++ text.data))
      ∧ 5 ≤ ("!a " ++ tok ++ sep ++ text).length + spare ("!a " ++ tok ++ sep ++ text).length
      ∧ Fields (String.mk (tok.data ++ (sep.data ++ text.data))) = tok :: Fields text
      ∧ len (Join (Fields text) " ") ≠ 0 := by
  have hm : ("!a " ++ tok ++ sep ++ text).data
      = '!' :: 'a' :: ' ' :: (tok.data ++ (sep.data ++ text.data)) := by
    simp only [String.data_append, List.append_assoc]
    rfl
  have htoks : ∀ t ∈ Fields text, t.data ≠ [] ∧ ∀ c ∈ t.data, IsSpace c = false :=
    FieldsFrom_tokens text.data [] (by simp)
  refine ⟨hm, ?_, Fields_id_sep_text tok sep text htok hsep, ?_⟩
  · have h1 : ("!a " ++ tok ++ sep ++ text).length
        = ('!' :: 'a' :: ' ' :: (tok.data ++ (sep.data ++ text.data))).length := by
      rw [← hm]; rfl
    have h2 : 0 < tok.data.length := List.length_pos.2 htok.1
    have h3 : 0 < sep.data.length := List.length_pos.2 hsep.1
    simp only [List.length_cons, List.length_append] at h1
    omega
  · cases hft : Fields text with
    | nil => exact absurd hft htext
    | cons a r =>
      exact len_Join_pos a r (htoks a (by rw [hft]; exact List.mem_cons_self _ _)).1

theorem problems_ne_includeID :
    "I had problems storing your provided answer in the DB. Did you specify the Question ID correctly?"
      ≠ includeIDReply := by
  decide

/-! ## Claims -/
/-- C1 (code defect): for a message `!a `, a token that `Atoi` rejects, white
space and a text with at least one token, sent by a resolved user, the
dispatcher does not stop at the validation reply: it builds an `Answer` with
the question ID `Atoi` left behind (0 for a token such as `abc`), runs the
existence check and both answer writes, and the reply it sends is not the
validation message. The failing input `!a abc hello` is the witness. -/
theorem C1_nonnumeric_id_is_stored {σ : Type} (env : Env σ) (s : σ)
    (user ch tok sep text : String) (info : SlackUserInfo) (e : Option String)
    (h : env.GetUserInfo user = (some info, e))
    (htok : tok.data ≠ [] ∧ ∀ c ∈ tok.data, IsSpace c = false)
    (herr : (Atoi tok).2 ≠ none)
    (hsep : sep.data ≠ [] ∧ ∀ c ∈ sep.data, IsSpace c = true)
    (htext : Fields text ≠ []) :
    (handleMessage env s ⟨user, ch, "!a " ++ tok ++ sep ++ text⟩).fault = none
      ∧ builtAnswers (handleMessage env s ⟨user, ch, "!a " ++ tok ++ sep ++ text⟩).calls
          = [newAnswer (Join (Fields text) " ") (Atoi tok).1 ch info,
             newAnswer (Join (Fields text) " ") (Atoi tok).1 ch info]
      ∧ (∃ found, Call.UserExistInDB
            (answerUser info (newAnswer (Join (Fields text) " ") (Atoi tok).1 ch info)) found
          ∈ (handleMessage env s ⟨user, ch, "!a " ++ tok ++ sep ++ text⟩).calls)
      ∧ Call.UpdateUserTableWithAnswer
            (answerUser info (newAnswer (Join (Fields text) " ") (Atoi tok).1 ch info))
            (newAnswer (Join (Fields text) " ") (Atoi tok).1 ch info)
          ∈ (handleMessage env s ⟨user, ch, "!a " ++ tok ++ sep ++ text⟩).calls
      ∧ includeIDReply
          ∉ sentTexts (handleMessage env s ⟨user, ch, "!a " ++ tok ++ sep ++ text⟩).calls := by
  obtain ⟨hm, hcap, hf, hl⟩ := answer_shape env.spare tok sep text htok hsep htext
  rw [handleMessage_answer env s user ch _ info e 'a' _ tok (Fields text) h (Or.inl rfl)
    hm hcap hf hl]
  refine ⟨rfl, ?_, ?_, ?_, ?_⟩
  · simp [builtAnswers, builtAnswers_append, builtAnswers_ensureUser]
  · simp only [ensureUser_calls]
    split
    · exact ⟨true, by simp⟩
    · exact ⟨false, by simp⟩
  · simp
  · simp only [sentTexts, sentTexts_append, sentTexts_ensureUser, NewOutgoingMessage]
    simp only [List.nil_append, List.mem_singleton]
    split
    · exact fun h => problems_ne_includeID h.symm
    · exact fun h => answerThanks_ne_includeID _ _ h.symm

/-- C1, at the failing input `!a abc hello`: question ID 0 is stored and the
validation message is not sent. -/
theorem C1_nonnumeric_id_is_stored_witness :
    ("!a " ++ "abc" ++ " " ++ "hello" : String) = "!a abc hello"
      ∧ Atoi "abc" = (0, some .ErrSyntax)
      ∧ builtAnswers (handleMessage (sampleEnv okWrites) emptyStore
            ⟨"U1", "C1", "!a " ++ "abc" ++ " " ++ "hello"⟩).calls
          = [newAnswer (Join (Fields "hello") " ") (Atoi "abc").1 "C1" sampleInfo,
             newAnswer (Join (Fields "hello") " ") (Atoi "abc").1 "C1" sampleInfo]
      ∧ includeIDReply
          ∉ sentTexts (handleMessage (sampleEnv okWrites) emptyStore
              ⟨"U1", "C1", "!a " ++ "abc" ++ " " ++ "hello"⟩).calls :=
  ⟨by decide, by decide,
   (C1_nonnumeric_id_is_stored (sampleEnv okWrites) emptyStore "U1" "C1" "abc" " " "hello"
      sampleInfo none rfl (by decide) (by decide) (by decide) (by decide)).2.1,
   (C1_nonnumeric_id_is_stored (sampleEnv okWrites) emptyStore "U1" "C1" "abc" " " "hello"
      sampleInfo none rfl (by decide) (by decide) (by decide) (by decide)).2.2.2.2⟩

/-- C2 (code defect): for a message `!a `, a token, white space and a text
with at least one token, sent by a resolved user, when
`UpdateUserTableWithAnswer` returns an error and
`UpdateQuestionTableWithAnswer` then returns no error, the one reply sent is
the "Thank you ... for providing an answer" confirmation. The failing input
`!a 5 The answer is no` is the witness. -/
theorem C2_first_write_error_is_overwritten {σ : Type} (env : Env σ) (s : σ)
    (user ch tok sep text : String) (info : SlackUserInfo) (e : Option String)
    (h : env.GetUserInfo user = (some info, e))
    (htok : tok.data ≠ [] ∧ ∀ c ∈ tok.data, IsSpace c = false)
    (hsep : sep.data ≠ [] ∧ ∀ c ∈ sep.data, IsSpace c = true)
    (htext : Fields text ≠ [])
    (h1 : ∀ st u a, (env.DB.UpdateUserTableWithAnswer st u a).2 ≠ none)
    (h2 : ∀ st q a, (env.DB.UpdateQuestionTableWithAnswer st q a).2.1 = none) :
    ∃ id, sentTexts (handleMessage env s ⟨user, ch, "!a " ++ tok ++ sep ++ text⟩).calls
      = [answerThanks info.Profile.RealName id] := by
  obtain ⟨hm, hcap, hf, hl⟩ := answer_shape env.spare tok sep text htok hsep htext
  rw [handleMessage_answer env s user ch _ info e 'a' _ tok (Fields text) h (Or.inl rfl)
    hm hcap hf hl]
  simp only [sentTexts, sentTexts_append, sentTexts_ensureUser, NewOutgoingMessage, h2]
  exact ⟨_, rfl⟩

/-- C2, at the failing input `!a 5 The answer is no` with a failing first
write: the confirmation is sent. -/
theorem C2_first_write_error_is_overwritten_witness :
    ("!a " ++ "5" ++ " " ++ "The answer is no" : String) = "!a 5 The answer is no"
      ∧ (firstWriteFails.UpdateUserTableWithAnswer ()
            (answerUser sampleInfo (newAnswer "The answer is no" 5 "C1" sampleInfo))
            (newAnswer "The answer is no" 5 "C1" sampleInfo)).2
          = some (DBError.other "connection refused")
      ∧ ∃ id, sentTexts (handleMessage (sampleEnv firstWriteFails) emptyStore
          ⟨"U1", "C1", "!a " ++ "5" ++ " " ++ "The answer is no"⟩).calls
        = [answerThanks sampleInfo.Profile.RealName id] :=
  ⟨by decide, by decide,
   C2_first_write_error_is_overwritten (sampleEnv firstWriteFails) emptyStore "U1" "C1"
    "5" " " "The answer is no" sampleInfo none rfl (by decide) (by decide) (by decide)
    (fun _ _ _ => by simp [sampleEnv, storeDB, firstWriteFails]) (fun _ _ _ => rfl)⟩

/-- C3 (code defect), at the failing inputs: a message that is `!a ` or `!qna `
followed by white space only ends in a run-time panic. The `!qna` message
panics on `parts[0]`; the `!a` message panics on `parts[0]` too, unless it is so
short that `msgSplit[0:5]` is already out of range. Nothing is sent. -/
theorem C3_missing_id_panics {σ : Type} (env : Env σ) (s : σ) (user ch ws : String)
    (hws : ∀ c ∈ ws.data, IsSpace c = true) :
    ((handleMessage env s ⟨user, ch, "!a " ++ ws⟩).fault = some .indexOutOfRange
        ∨ (handleMessage env s ⟨user, ch, "!a " ++ ws⟩).fault = some .sliceOutOfRange)
      ∧ (5 ≤ ("!a " ++ ws).length + env.spare ("!a " ++ ws).length →
          (handleMessage env s ⟨user, ch, "!a " ++ ws⟩).fault = some .indexOutOfRange)
      ∧ (handleMessage env s ⟨user, ch, "!a " ++ ws⟩).calls = [.GetUserInfo user]
      ∧ (handleMessage env s ⟨user, ch, "!qna " ++ ws⟩).fault = some .indexOutOfRange
      ∧ (handleMessage env s ⟨user, ch, "!qna " ++ ws⟩).calls = [.GetUserInfo user] := by
  have ha : ("!a " ++ ws).data = '!' :: 'a' :: ' ' :: ws.data := rfl
  have hq : ("!qna " ++ ws).data = '!' :: 'q' :: 'n' :: 'a' :: ' ' :: ws.data := rfl
  have hf : Fields (String.mk ws.data) = [] := FieldsFrom_spaces ws.data hws
  have hA : caseA env s ch (env.GetUserInfo user).1 (runes env.spare ("!a " ++ ws))
      = ⟨s, [], some .indexOutOfRange, NewOutgoingMessage "" ch⟩ := by
    simp only [caseA, sliceFrom_three env.spare _ _ _ _ _ ha, hf]
  have hQ : caseQna s ch (runes env.spare ("!qna " ++ ws))
      = ⟨s, [], some .indexOutOfRange, NewOutgoingMessage "" ch⟩ := by
    simp only [caseQna, sliceFrom_five env.spare _ _ _ _ _ _ _ hq, hf]
  simp only [handleMessage, dispatch_qna env s ch _ _ _ hq,
    dispatch_a env s ch _ _ 'a' _ (Or.inl rfl) ha, hA, hQ]
  split_ifs with hcap
  · simp
  · refine ⟨Or.inr rfl, fun h5 => absurd h5 hcap, ?_, ?_, ?_⟩ <;> first | rfl | trivial

/-- C3, at the failing inputs `!a  ` and `!qna  ` (the command and one more
space): both panic on `parts[0]` and nothing is sent. -/
theorem C3_missing_id_panics_witness :
    ("!a " ++ " " : String) = "!a  " ∧ ("!qna " ++ " " : String) = "!qna  "
      ∧ (handleMessage (sampleEnv okWrites) emptyStore ⟨"U1", "C1", "!a " ++ " "⟩).fault
        = some .indexOutOfRange
      ∧ (handleMessage (sampleEnv okWrites) emptyStore ⟨"U1", "C1", "!a " ++ " "⟩).calls
        = [.GetUserInfo "U1"]
      ∧ (handleMessage (sampleEnv okWrites) emptyStore ⟨"U1", "C1", "!qna " ++ " "⟩).fault
        = some .indexOutOfRange
      ∧ (handleMessage (sampleEnv okWrites) emptyStore ⟨"U1", "C1", "!qna " ++ " "⟩).calls
        = [.GetUserInfo "U1"] :=
  ⟨by decide, by decide,
   (C3_missing_id_panics (sampleEnv okWrites) emptyStore "U1" "C1" " " (by decide)).2.1
      (by decide),
   (C3_missing_id_panics (sampleEnv okWrites) emptyStore "U1" "C1" " " (by decide)).2.2⟩

/-- C4: with the store a collection of User rows, `UserExistInDB` the function
of src/db.go run on those rows and `UpdateUsers` an insert, the dispatcher
keeps at most one User row per platform ID over every sequence of messages
(so over every sequence of `!q` messages); it calls `UpdateUsers` for a message
only after `UserExistInDB` returned false for the same record, which then has
no row; and two `!q` messages from the same new user, whose profile lookup
resolves, leave exactly one User row for that user. -/
theorem C4_user_rows_stay_unique {τ : Type} (g : String → Option SlackUserInfo × Option String)
    (sp : Nat → Nat) (w : Writes τ) (st : Store τ) (hu : UniqueUsers st.users) :
    (∀ msgs, UniqueUsers (CommandParser ⟨g, sp, storeDB w⟩ st msgs).db.users)
      ∧ (∀ m u, Call.UpdateUsers u ∈ (handleMessage ⟨g, sp, storeDB w⟩ st m).calls →
          Call.UserExistInDB u false ∈ (handleMessage ⟨g, sp, storeDB w⟩ st m).calls
            ∧ countUsers st.users u.SlackUser = 0)
      ∧ (∀ user ch t1 t2 info e, g user = (some info, e) → countUsers st.users info.ID = 0 →
          countUsers (CommandParser ⟨g, sp, storeDB w⟩ st
            [⟨user, ch, "!q " ++ t1⟩, ⟨user, ch, "!q " ++ t2⟩]).db.users info.ID = 1) := by
  refine ⟨fun msgs => unique_CommandParser g sp w msgs st hu, ?_, ?_⟩
  · intro m u hmem
    obtain ⟨h1, h2⟩ := guarded_handleMessage ⟨g, sp, storeDB w⟩ st m u hmem
    exact ⟨h1, (storeDB_exist w st u).1 h2⟩
  · intro user ch t1 t2 info e hg h0
    obtain ⟨hf1, hu1⟩ := question_step_users g sp w st user ch t1 info e hg
    rw [if_pos h0] at hu1
    have hc1 : countUsers (handleMessage ⟨g, sp, storeDB w⟩ st
        ⟨user, ch, "!q " ++ t1⟩).db.users info.ID = 1 := by
      rw [hu1, countUsers_append, h0]
      simp [countUsers, questionUser]
    obtain ⟨hf2, hu2⟩ := question_step_users g sp w
      (handleMessage ⟨g, sp, storeDB w⟩ st ⟨user, ch, "!q " ++ t1⟩).db user ch t2 info e hg
    rw [if_neg (by rw [hc1]; decide)] at hu2
    simp only [CommandParser, hf1, hf2, hu2, hc1]

/-- C4, on the empty store: after `!q one` and `!q two` from the new user `U1`
the User rows are unique and exactly one of them is the row of `U1`. -/
theorem C4_user_rows_stay_unique_witness :
    UniqueUsers (CommandParser (sampleEnv okWrites) emptyStore
        [⟨"U1", "C1", "!q " ++ "one"⟩, ⟨"U1", "C1", "!q " ++ "two"⟩]).db.users
      ∧ countUsers (CommandParser (sampleEnv okWrites) emptyStore
        [⟨"U1", "C1", "!q " ++ "one"⟩, ⟨"U1", "C1", "!q " ++ "two"⟩]).db.users "U1" = 1
      ∧ (CommandParser (sampleEnv okWrites) emptyStore
        [⟨"U1", "C1", "!q " ++ "one"⟩, ⟨"U1", "C1", "!q " ++ "two"⟩]).db.users.length = 1 :=
  ⟨(C4_user_rows_stay_unique (fun _ => (some sampleInfo, none)) stackSpare okWrites emptyStore
      (by simp [UniqueUsers, emptyStore])).1 _,
   (C4_user_rows_stay_unique (fun _ => (some sampleInfo, none)) stackSpare okWrites emptyStore
      (by simp [UniqueUsers, emptyStore])).2.2 "U1" "C1" "one" "two" sampleInfo none rfl
      (by decide),
   by decide⟩

/-- C5 (code defect): when the profile lookup returns a nil record, a
`!q <text>` message and a well-formed `!a <id> <text>` message (a token, white
space, a text with at least one token) both end in a nil dereference, right
after the lookup and before any other call; nothing is sent. The failing
inputs `!q hi` and `!a 5 The answer is no` are the witness. -/
theorem C5_failed_lookup_panics {σ : Type} (env : Env σ) (s : σ)
    (user ch question tok sep text : String) (e : Option String)
    (h : env.GetUserInfo user = (none, e))
    (htok : tok.data ≠ [] ∧ ∀ c ∈ tok.data, IsSpace c = false)
    (hsep : sep.data ≠ [] ∧ ∀ c ∈ sep.data, IsSpace c = true)
    (htext : Fields text ≠ []) :
    (handleMessage env s ⟨user, ch, "!q " ++ question⟩).fault = some .nilDereference
      ∧ (handleMessage env s ⟨user, ch, "!q " ++ question⟩).calls = [.GetUserInfo user]
      ∧ (handleMessage env s ⟨user, ch, "!a " ++ tok ++ sep ++ text⟩).fault
        = some .nilDereference
      ∧ (handleMessage env s ⟨user, ch, "!a " ++ tok ++ sep ++ text⟩).calls
        = [.GetUserInfo user] := by
  have hq : ("!q " ++ question).data = '!' :: 'q' :: ' ' :: question.data := rfl
  obtain ⟨ha, hcap, hf, hl⟩ := answer_shape env.spare tok sep text htok hsep htext
  have hA := caseA_nil env s ch (runes env.spare ("!a " ++ tok ++ sep ++ text)) _ _ _
    (sliceFrom_three env.spare _ _ _ _ _ ha) hf hl
  simp only [handleMessage, h, dispatch_q env s ch none _ _ hq,
    dispatch_a env s ch none _ 'a' _ (Or.inl rfl) ha, hcap, if_true, hA]
  simp [caseQ, sliceFrom_three env.spare _ _ _ _ _ hq]

/-- C5, at the failing inputs `!q hi` and `!a 5 The answer is no` with a
failed lookup: both panic. -/
theorem C5_failed_lookup_panics_witness :
    ("!q " ++ "hi" : String) = "!q hi"
      ∧ ("!a " ++ "5" ++ " " ++ "The answer is no" : String) = "!a 5 The answer is no"
      ∧ noProfileEnv.GetUserInfo "U1" = (none, some "user_not_found")
      ∧ (handleMessage noProfileEnv emptyStore ⟨"U1", "C1", "!q " ++ "hi"⟩).fault
        = some .nilDereference
      ∧ (handleMessage noProfileEnv emptyStore
          ⟨"U1", "C1", "!a " ++ "5" ++ " " ++ "The answer is no"⟩).fault
        = some .nilDereference :=
  ⟨by decide, by decide, rfl,
   (C5_failed_lookup_panics noProfileEnv emptyStore "U1" "C1" "hi" "5" " " "The answer is no"
      (some "user_not_found") rfl (by decide) (by decide) (by decide)).1,
   (C5_failed_lookup_panics noProfileEnv emptyStore "U1" "C1" "hi" "5" " " "The answer is no"
      (some "user_not_found") rfl (by decide) (by decide) (by decide)).2.2.1⟩

/-- C6, counterexample: the question write fails with an error that is not a
uniqueness violation, and the reply is the already-asked notice. -/
theorem C6_counterexample :
    (connectionDown.UpdateUserTableWithQuestion ()
        (questionUser sampleInfo (newQuestion "Why?" "C1" sampleInfo))
        (newQuestion "Why?" "C1" sampleInfo)).2.1 = some (DBError.other "connection refused")
      ∧ sentTexts (handleMessage (sampleEnv connectionDown) emptyStore
          ⟨"U1", "C1", "!q Why?"⟩).calls = [alreadyAskedReply] := by
  decide

/-- C6, as amended: for every `!q <text>` message from a resolved user, the
reply is the already-asked notice whenever `UpdateUserTableWithQuestion`
returns an error, whether a uniqueness violation or any other failure, and is
the confirmation with the author name and the assigned question ID when it
returns no error. -/
theorem C6_question_reply {σ : Type} (env : Env σ) (s : σ) (user ch text : String)
    (info : SlackUserInfo) (e : Option String) (h : env.GetUserInfo user = (some info, e)) :
    ((env.DB.UpdateUserTableWithQuestion
          (ensureUser env.DB s (questionUser info (newQuestion text ch info))).1
          (questionUser info (newQuestion text ch info)) (newQuestion text ch info)).2.1 ≠ none →
        sentTexts (handleMessage env s ⟨user, ch, "!q " ++ text⟩).calls = [alreadyAskedReply])
      ∧ ((env.DB.UpdateUserTableWithQuestion
          (ensureUser env.DB s (questionUser info (newQuestion text ch info))).1
          (questionUser info (newQuestion text ch info)) (newQuestion text ch info)).2.1 = none →
        sentTexts (handleMessage env s ⟨user, ch, "!q " ++ text⟩).calls =
          [questionThanks info.Profile.RealName
            (env.DB.UpdateUserTableWithQuestion
              (ensureUser env.DB s (questionUser info (newQuestion text ch info))).1
              (questionUser info (newQuestion text ch info)) (newQuestion text ch info)).2.2]) := by
  have hm : ("!q " ++ text).data = '!' :: 'q' :: ' ' :: text.data := rfl
  rw [handleMessage_question env s user ch _ info e 'q' _ h (Or.inl rfl) hm]
  simp only [sentTexts, sentTexts_append, sentTexts_ensureUser, NewOutgoingMessage,
    List.nil_append]
  constructor
  · intro hw
    cases hx : (env.DB.UpdateUserTableWithQuestion
        (ensureUser env.DB s (questionUser info (newQuestion text ch info))).1
        (questionUser info (newQuestion text ch info)) (newQuestion text ch info)).2.1 with
    | none => exact absurd hx hw
    | some d => rfl
  · intro hw
    rw [hw]

/-- C6, as amended, on two stores: a failed connection gives the already-asked
notice, a successful write gives the confirmation with the name and ID 7. -/
theorem C6_question_reply_witness :
    sentTexts (handleMessage (sampleEnv connectionDown) emptyStore
        ⟨"U1", "C1", "!q " ++ "Why?"⟩).calls = [alreadyAskedReply]
      ∧ sentTexts (handleMessage (sampleEnv okWrites) emptyStore
        ⟨"U1", "C1", "!q " ++ "Why?"⟩).calls = [questionThanks "Ann" 7] :=
  ⟨(C6_question_reply (sampleEnv connectionDown) emptyStore "U1" "C1" "Why?" sampleInfo none
      rfl).1 (by decide),
   (C6_question_reply (sampleEnv okWrites) emptyStore "U1" "C1" "Why?" sampleInfo none
      rfl).2 (by decide)⟩

/-- C7, counterexample: `!QNA 5` is not dispatched like `!qna 5`: no answer
lookup is started for it. -/
theorem C7_counterexample :
    (handleMessage (sampleEnv okWrites) emptyStore ⟨"U1", "C1", "!qna 5"⟩).calls
        = [.GetUserInfo "U1", .goQnaHandler "C1" 5, .SendMessage ⟨"", "C1"⟩]
      ∧ (handleMessage (sampleEnv okWrites) emptyStore ⟨"U1", "C1", "!QNA 5"⟩).calls
        = [.GetUserInfo "U1", .SendMessage ⟨"", "C1"⟩] := by
  decide

/-- C7, as amended: classification is case-insensitive between the two
spellings the `switch` lists for each command: a message that begins with
`!Q `, `!LQ`, `!QnA ` or `!A ` is handled exactly like the same message with
that beginning replaced by `!q `, `!lq`, `!qna ` or `!a `. -/
theorem C7_accepted_spellings {σ : Type} (env : Env σ) (s : σ) (user ch rest : String) :
    handleMessage env s ⟨user, ch, "!Q " ++ rest⟩ = handleMessage env s ⟨user, ch, "!q " ++ rest⟩
      ∧ handleMessage env s ⟨user, ch, "!LQ" ++ rest⟩
          = handleMessage env s ⟨user, ch, "!lq" ++ rest⟩
      ∧ handleMessage env s ⟨user, ch, "!QnA " ++ rest⟩
          = handleMessage env s ⟨user, ch, "!qna " ++ rest⟩
      ∧ handleMessage env s ⟨user, ch, "!A " ++ rest⟩
          = handleMessage env s ⟨user, ch, "!a " ++ rest⟩ := by
  have hQ : ("!Q " ++ rest).data = '!' :: 'Q' :: ' ' :: rest.data := rfl
  have hq : ("!q " ++ rest).data = '!' :: 'q' :: ' ' :: rest.data := rfl
  have hLQ : ("!LQ" ++ rest).data = '!' :: 'L' :: 'Q' :: rest.data := rfl
  have hlq : ("!lq" ++ rest).data = '!' :: 'l' :: 'q' :: rest.data := rfl
  have hQnA : ("!QnA " ++ rest).data = '!' :: 'Q' :: 'n' :: 'A' :: ' ' :: rest.data := rfl
  have hqna : ("!qna " ++ rest).data = '!' :: 'q' :: 'n' :: 'a' :: ' ' :: rest.data := rfl
  have hA : ("!A " ++ rest).data = '!' :: 'A' :: ' ' :: rest.data := rfl
  have ha : ("!a " ++ rest).data = '!' :: 'a' :: ' ' :: rest.data := rfl
  have hlen : ("!A " ++ rest).length = ("!a " ++ rest).length := by
    show ("!A " ++ rest).data.length = ("!a " ++ rest).data.length
    rw [hA, ha]
    rfl
  refine ⟨?_, ?_, ?_, ?_⟩
  · simp only [handleMessage, dispatch_Q env s ch _ _ _ hQ, dispatch_q env s ch _ _ _ hq]
    rw [caseQ_congr env s ch _ (runes env.spare ("!Q " ++ rest)) (runes env.spare ("!q " ++ rest))
      (by rw [sliceFrom_three env.spare _ _ _ _ _ hQ, sliceFrom_three env.spare _ _ _ _ _ hq])]
  · simp only [handleMessage, dispatch_LQ env s ch _ _ _ hLQ, dispatch_lq env s ch _ _ _ hlq]
  · simp only [handleMessage, dispatch_QnA env s ch _ _ _ hQnA, dispatch_qna env s ch _ _ _ hqna]
    rw [caseQna_congr s ch (runes env.spare ("!QnA " ++ rest))
      (runes env.spare ("!qna " ++ rest))
      (by rw [sliceFrom_five env.spare _ _ _ _ _ _ _ hQnA,
            sliceFrom_five env.spare _ _ _ _ _ _ _ hqna])]
  · simp only [handleMessage, dispatch_a env s ch _ _ 'A' _ (Or.inr rfl) hA,
      dispatch_a env s ch _ _ 'a' _ (Or.inl rfl) ha, hlen]
    rw [caseA_congr env s ch _ (runes env.spare ("!A " ++ rest)) (runes env.spare ("!a " ++ rest))
      (by rw [sliceFrom_three env.spare _ _ _ _ _ hA, sliceFrom_three env.spare _ _ _ _ _ ha])]

/-- C8, counterexample: in `!a 9223372036854775808 x` the decimal integer is
2^63, one more than the largest Go `int`. `Atoi` returns the largest `int`
with a range error, the arm goes on, and the `Answer` it builds has
`QuestionID` 9223372036854775807, not 9223372036854775808. -/
theorem C8_counterexample :
    decimalValue "9223372036854775808".data = 9223372036854775808
      ∧ Atoi "9223372036854775808" = (9223372036854775807, some .ErrRange)
      ∧ builtAnswers (handleMessage (sampleEnv okWrites) emptyStore
          ⟨"U1", "C1", "!a 9223372036854775808 x"⟩).calls
        = [newAnswer "x" 9223372036854775807 "C1" sampleInfo,
           newAnswer "x" 9223372036854775807 "C1" sampleInfo]
      ∧ (newAnswer "x" 9223372036854775807 "C1" sampleInfo).QuestionID
        ≠ ((decimalValue "9223372036854775808".data : Nat) : Int) := by
  decide

/-- C8, as amended: for a message `!a ` followed by a decimal integer `n` (an
optional sign and digits) that fits Go's 64-bit `int`, white space and a text
with at least one token, every `Answer` the dispatcher builds has `QuestionID = n`
and as body the tokens of the text joined by single spaces, and for a resolved
user it does build that `Answer`. The tokens are non-empty and free of white
space, so the body has no leading, trailing or repeated white space, and the
body is the text itself when the text is already a list of tokens joined by
single spaces. -/
theorem C8_answer_extraction {σ : Type} (env : Env σ) (s : σ)
    (user ch sign digits sep text : String) (n : Int)
    (hsign : sign = "" ∨ sign = "+" ∨ sign = "-")
    (hdig : digits.data ≠ [] ∧ ∀ c ∈ digits.data, isDigit c = true)
    (hn : n = if sign = "-" then -((decimalValue digits.data : Nat) : Int)
              else ((decimalValue digits.data : Nat) : Int))
    (hfit : -(2 ^ 63 : Int) ≤ n ∧ n < 2 ^ 63)
    (hsep : sep.data ≠ [] ∧ ∀ c ∈ sep.data, IsSpace c = true)
    (htext : Fields text ≠ []) :
    (∀ a ∈ builtAnswers
          (handleMessage env s ⟨user, ch, "!a " ++ (sign ++ digits) ++ sep ++ text⟩).calls,
        a.QuestionID = n ∧ a.Answer = Join (Fields text) " ")
      ∧ (∀ info e, env.GetUserInfo user = (some info, e) →
          builtAnswers
              (handleMessage env s ⟨user, ch, "!a " ++ (sign ++ digits) ++ sep ++ text⟩).calls
            = [newAnswer (Join (Fields text) " ") n ch info,
               newAnswer (Join (Fields text) " ") n ch info])
      ∧ (∀ t ∈ Fields text, t.data ≠ [] ∧ ∀ c ∈ t.data, IsSpace c = false)
      ∧ (∀ toks : List String, (∀ t ∈ toks, t.data ≠ [] ∧ ∀ c ∈ t.data, IsSpace c = false) →
          text = Join toks " " → Join (Fields text) " " = text) := by
  have hm : ("!a " ++ (sign ++ digits) ++ sep ++ text).data
      = '!' :: 'a' :: ' ' :: ((sign ++ digits).data ++ (sep.data ++ text.data)) := by
    simp only [String.data_append, List.append_assoc]
    rfl
  have hid := signed_token sign digits hsign hdig
  have hf := Fields_id_sep_text (sign ++ digits) sep text hid hsep
  have htok : ∀ t ∈ Fields text, t.data ≠ [] ∧ ∀ c ∈ t.data, IsSpace c = false :=
    FieldsFrom_tokens text.data [] (by simp)
  have hl : len (Join (Fields text) " ") ≠ 0 := by
    cases hft : Fields text with
    | nil => exact absurd hft htext
    | cons a r =>
      exact len_Join_pos a r (htok a (by rw [hft]; exact List.mem_cons_self _ _)).1
  have hcap : 5 ≤ ("!a " ++ (sign ++ digits) ++ sep ++ text).length
      + env.spare ("!a " ++ (sign ++ digits) ++ sep ++ text).length := by
    have h1 : ("!a " ++ (sign ++ digits) ++ sep ++ text).length
        = ('!' :: 'a' :: ' ' :: ((sign ++ digits).data ++ (sep.data ++ text.data))).length := by
      rw [← hm]; rfl
    have h2 : 0 < (sign ++ digits).data.length := List.length_pos.2 hid.1
    have h3 : 0 < sep.data.length := List.length_pos.2 hsep.1
    simp only [List.length_cons, List.length_append] at h1
    omega
  have hat : Atoi (sign ++ digits) = (n, none) := by
    have hA := Atoi_decimal sign digits.data hsign hdig.1 hdig.2
      (by
        intro hs
        rw [if_pos hs] at hn
        have := hfit.1
        rw [hn] at this
        have h2 : ((decimalValue digits.data : Nat) : Int) ≤ 2 ^ 63 := by linarith
        exact_mod_cast h2)
      (by
        intro hs
        rw [if_neg hs] at hn
        have := hfit.2
        rw [hn] at this
        exact_mod_cast this)
    rw [hn]
    exact hA
  have hsome : ∀ info e, env.GetUserInfo user = (some info, e) →
      builtAnswers
          (handleMessage env s ⟨user, ch, "!a " ++ (sign ++ digits) ++ sep ++ text⟩).calls
        = [newAnswer (Join (Fields text) " ") n ch info,
           newAnswer (Join (Fields text) " ") n ch info] := by
    intro info e hinfo
    rw [handleMessage_answer env s user ch _ info e 'a' _ (sign ++ digits) (Fields text) hinfo
      (Or.inl rfl) hm hcap hf hl]
    simp [builtAnswers, builtAnswers_append, builtAnswers_ensureUser, hat]
  refine ⟨?_, hsome, htok, ?_⟩
  · intro a ha
    rcases hg : env.GetUserInfo user with ⟨ui, e⟩
    cases ui with
    | none =>
      have hnil := caseA_nil env s ch
        (runes env.spare ("!a " ++ (sign ++ digits) ++ sep ++ text)) _ (sign ++ digits)
        (Fields text) (sliceFrom_three env.spare _ _ _ _ _ hm) hf hl
      simp only [handleMessage, hg, dispatch_a env s ch none _ 'a' _ (Or.inl rfl) hm, hcap,
        if_true, hnil, builtAnswers] at ha
      exact absurd ha (by simp)
    | some info =>
      rw [hsome info e hg] at ha
      simp only [List.mem_cons, List.mem_singleton, List.not_mem_nil, or_false, or_self] at ha
      subst ha
      exact ⟨rfl, rfl⟩
  · intro toks htoks heq
    rw [heq, Fields_Join toks htoks]

/-- C8, on `!a 5 The answer is no`: the `Answer` built has question ID 5 and
body `The answer is no`. -/
theorem C8_answer_extraction_witness :
    ("!a " ++ ("" ++ "5") ++ " " ++ "The answer is no" : String) = "!a 5 The answer is no"
      ∧ builtAnswers (handleMessage (sampleEnv okWrites) emptyStore
          ⟨"U1", "C1", "!a " ++ ("" ++ "5") ++ " " ++ "The answer is no"⟩).calls
        = [newAnswer (Join (Fields "The answer is no") " ") 5 "C1" sampleInfo,
           newAnswer (Join (Fields "The answer is no") " ") 5 "C1" sampleInfo]
      ∧ Join (Fields "The answer is no") " " = "The answer is no" :=
  ⟨by decide,
   (C8_answer_extraction (sampleEnv okWrites) emptyStore "U1" "C1" "" "5" " " "The answer is no"
      5 (by decide) (by decide) (by decide) (by decide) (by decide) (by decide)).2.1
      sampleInfo none rfl,
   (C8_answer_extraction (sampleEnv okWrites) emptyStore "U1" "C1" "" "5" " " "The answer is no"
      5 (by decide) (by decide) (by decide) (by decide) (by decide) (by decide)).2.2.2
      ["The", "answer", "is", "no"] (by decide) (by decide)⟩

/-- C9, counterexample: a lookup that reports an error and counts zero rows
makes `UserExistInDB` return false, not true. -/
theorem C9_counterexample :
    (failedLookup (questionUser sampleInfo (newQuestion "hi" "C1" sampleInfo))).handle
        = some { Error := some "record not found" }
      ∧ UserExistInDB failedLookup (questionUser sampleInfo (newQuestion "hi" "C1" sampleInfo))
        = false := by
  decide

/-- C9, as amended: `UserExistInDB` never reads the error state of the lookup.
It returns false exactly when the query chain returned a handle and the count
is zero, whatever the error state, and true in every other case. -/
theorem C9_UserExistInDB_ignores_error (lookup : User → Lookup) (u : User) :
    (UserExistInDB lookup u = false ↔ (lookup u).handle ≠ none ∧ (lookup u).count = 0)
      ∧ ∀ (e1 e2 : Option String) (n : Int),
          UserExistInDB (fun _ => { handle := some { Error := e1 }, count := n }) u
            = UserExistInDB (fun _ => { handle := some { Error := e2 }, count := n }) u := by
  constructor
  · unfold UserExistInDB
    cases hh : (lookup u).handle <;> by_cases hc : (lookup u).count = 0 <;> simp [hh, hc]
  · intro e1 e2 n
    rfl

/-- C10, counterexample: `hello` begins with no command spelling, and the
dispatcher still calls `SendMessage` for it. -/
theorem C10_counterexample :
    (commandPrefixes.all (fun p => !beginsWith "hello" p)) = true
      ∧ (handleMessage (sampleEnv okWrites) emptyStore ⟨"U1", "C1", "hello"⟩).calls
        = [.GetUserInfo "U1", .SendMessage ⟨"", "C1"⟩] := by
  decide

/-- C10, as amended: for every message that begins with none of the accepted
command spellings the store is left as it was and no persistence operation is
invoked. The dispatcher still calls `SendMessage` once, with an empty text on
the channel of the message, when the slices `msgSplit[0:3]` and
`msgSplit[0:5]` are in range; when they are not, the handler panics right
after the profile lookup. -/
theorem C10_unrecognised_message {σ : Type} (env : Env σ) (s : σ) (m : Message)
    (h : ∀ p ∈ commandPrefixes, beginsWith m.Message p = false) :
    (handleMessage env s m).db = s
      ∧ (∀ c ∈ (handleMessage env s m).calls, c.isPersistence = false)
      ∧ (5 ≤ m.Message.length + env.spare m.Message.length →
          (handleMessage env s m).fault = none
            ∧ (handleMessage env s m).calls
              = [.GetUserInfo m.User, .SendMessage ⟨"", m.Channel⟩])
      ∧ (¬ 5 ≤ m.Message.length + env.spare m.Message.length →
          (handleMessage env s m).fault = some .sliceOutOfRange
            ∧ (handleMessage env s m).calls = [.GetUserInfo m.User]) := by
  have hz3 : ∀ lit ∈ commandPrefixes, ∀ c ∈ lit.data, c ≠ Char.ofNat 0 := by decide
  have key : ∀ (n : Nat) (p : List Char) (lit : String),
      (runes env.spare m.Message).sliceTo n = some p → lit ∈ commandPrefixes → lit.length = n →
      ¬ (String.mk p = lit) := fun n p lit hs hmem hlen =>
    not_match_of_not_beginsWith env.spare m.Message lit n p hs hlen (hz3 lit hmem) (h lit hmem)
  have hd : dispatch env s m.Channel (env.GetUserInfo m.User).1 (runes env.spare m.Message)
      = if 5 ≤ m.Message.length + env.spare m.Message.length then
          ⟨s, [], none, NewOutgoingMessage "" m.Channel⟩
        else ⟨s, [], some .sliceOutOfRange, NewOutgoingMessage "" m.Channel⟩ := by
    unfold dispatch
    cases h3 : (runes env.spare m.Message).sliceTo 3 with
    | none =>
      have : ¬ 3 ≤ m.Message.length + env.spare m.Message.length := by
        intro hc
        simp [runes, RuneSlice.sliceTo, hc] at h3
      have h5 : ¬ 5 ≤ m.Message.length + env.spare m.Message.length := by omega
      simp [h5]
    | some p3 =>
      have n1 := key 3 p3 "!q " h3 (by decide) (by decide)
      have n2 := key 3 p3 "!Q " h3 (by decide) (by decide)
      have n3 := key 3 p3 "!lq" h3 (by decide) (by decide)
      have n4 := key 3 p3 "!LQ" h3 (by decide) (by decide)
      have n7 := key 3 p3 "!a " h3 (by decide) (by decide)
      have n8 := key 3 p3 "!A " h3 (by decide) (by decide)
      cases h5 : (runes env.spare m.Message).sliceTo 5 with
      | none =>
        have h5' : ¬ 5 ≤ m.Message.length + env.spare m.Message.length := by
          intro hc
          simp [runes, RuneSlice.sliceTo, hc] at h5
        simp [n1, n2, n3, n4, h5']
      | some p5 =>
        have n5 := key 5 p5 "!qna " h5 (by decide) (by decide)
        have n6 := key 5 p5 "!QnA " h5 (by decide) (by decide)
        have h5' : 5 ≤ m.Message.length + env.spare m.Message.length := by
          by_contra hc
          simp [runes, RuneSlice.sliceTo, hc] at h5
        simp [n1, n2, n3, n4, n5, n6, n7, n8, h5']
  simp only [handleMessage, hd]
  split_ifs with hcap <;> simp [hcap, NewOutgoingMessage, Call.isPersistence]

/-- C10, as amended, on `hello`: no persistence call, one `SendMessage` with an
empty text. -/
theorem C10_unrecognised_message_witness :
    (∀ c ∈ (handleMessage (sampleEnv okWrites) emptyStore ⟨"U1", "C1", "hello"⟩).calls,
        c.isPersistence = false)
      ∧ (handleMessage (sampleEnv okWrites) emptyStore ⟨"U1", "C1", "hello"⟩).calls
        = [.GetUserInfo "U1", .SendMessage ⟨"", "C1"⟩] :=
  ⟨(C10_unrecognised_message (sampleEnv okWrites) emptyStore ⟨"U1", "C1", "hello"⟩
      (by decide)).2.1,
   ((C10_unrecognised_message (sampleEnv okWrites) emptyStore ⟨"U1", "C1", "hello"⟩
      (by decide)).2.2.1 (by decide)).2⟩

end QBot
